import Mathlib

/-!
Shallow embedding of the wash-trading / bot-detection / risk-fusion core of the
`solana_wash_trading_analysis` repository, together with proofs settling the
frozen claims about it.

Conventions of the embedding:
* pandas DataFrames become `List` of per-row structures, in row order;
* USD amounts, scores and ratios become `ℚ` (the source computes in floats;
  every claim here is about exact arithmetic identities of the formulas);
* timestamps become `Int` seconds since the epoch (`timedelta(hours=h)` is
  `h * 3600` seconds);
* a JSON payload that may be absent becomes an `Option`;
* Python `set`s become `List`s read up to membership (duplicates irrelevant).
-/

namespace SolanaWash

/-- Stable insertion used by `sortLe`: `x` is placed before the first element
`y` with `¬ le x y`, so earlier list elements stay before equal later ones. -/
def insertLe {α : Type} (le : α → α → Bool) (x : α) : List α → List α
  | [] => [x]
  | y :: ys => if le x y then x :: y :: ys else y :: insertLe le x ys

/-- Stable insertion sort modelling `pandas.sort_values`. -/
def sortLe {α : Type} (le : α → α → Bool) : List α → List α
  | [] => []
  | x :: xs => insertLe le x (sortLe le xs)

/-- Codepoint-wise lexicographic strict order on strings (Python `<` on `str`),
written out over the character lists so that it evaluates by `decide`. -/
def charListLt : List Char → List Char → Bool
  | [], [] => false
  | [], _ :: _ => true
  | _ :: _, [] => false
  | c :: cs, d :: ds =>
    if c.val < d.val then true
    else if d.val < c.val then false
    else charListLt cs ds

/-- Python string `<`. -/
def strLt (a b : String) : Bool := charListLt a.toList b.toList

/-- Python string `<=`. -/
def strLe (a b : String) : Bool := strLt a b || a == b

/-- Group keys in the order `pandas.groupby` yields them: distinct keys sorted
ascending. (`List.dedup` keeps the last occurrence; the subsequent sort makes
the starting order irrelevant.) -/
def groupKeys {α : Type} (key : α → String) (l : List α) : List String :=
  sortLe strLe (l.map key).dedup

/-- A user-to-user flow, one row of the table produced by
`LiveDataFetcher.process_transfers_to_user_flows`. The token/chain metadata
columns (`token_symbol`, `token_address`, `chain`) are omitted: no analysis
reads them. -/
structure UserFlow where
  transaction_hash : String
  start_wallet : String
  end_wallet : String
  start_entity_type : Option String
  end_entity_type : Option String
  timestamp : Int
  block_number : Int
  usd_value : ℚ
  hop_count : Nat
  is_self_transfer : Bool
deriving DecidableEq

/-! ### WashTradingDetector -/

/-- One row of the `detect_self_transfers` summary. -/
structure SelfTransferRow where
  wallet : String
  transfer_count : Nat
  total_volume_usd : ℚ
  avg_volume_usd : ℚ
deriving DecidableEq

/-- The summary table of `detect_self_transfers`: rows grouped by
`start_wallet` over the self-transfer flows, sorted by count descending. -/
def selfTransferSummary (flows : List UserFlow) : List SelfTransferRow :=
  let selfs := flows.filter (·.is_self_transfer)
  let rows := (groupKeys (·.start_wallet) selfs).map fun w =>
    let g := selfs.filter (fun f => f.start_wallet == w)
    { wallet := w
      transfer_count := g.length
      total_volume_usd := (g.map (·.usd_value)).sum
      avg_volume_usd := (g.map (·.usd_value)).sum / g.length }
  sortLe (fun a b => decide (b.transfer_count ≤ a.transfer_count)) rows

/-- `WashTradingDetector.detect_self_transfers`: early-return with an empty
table when there are no self-transfer flows, otherwise the summary plus the
suspicious set updated with its wallets. -/
def detectSelfTransfers (flows : List UserFlow) (susp : List String) :
    List SelfTransferRow × List String :=
  if (flows.filter (·.is_self_transfer)).isEmpty then ([], susp)
  else (selfTransferSummary flows,
        susp ++ (selfTransferSummary flows).map (·.wallet))

/-- The unordered wallet pair of a flow: `tuple(sorted([start, end]))`. -/
def pairKey (f : UserFlow) : String × String :=
  if strLe f.start_wallet f.end_wallet then (f.start_wallet, f.end_wallet)
  else (f.end_wallet, f.start_wallet)

/-- Lexicographic order on wallet pairs (order of `groupby('wallet_pair')`). -/
def pairLe (p q : String × String) : Bool :=
  strLt p.1 q.1 || (p.1 == q.1 && strLe p.2 q.2)

/-- Distinct wallet pairs of a flow table, sorted as `groupby` sorts keys. -/
def pairKeysOf (flows : List UserFlow) : List (String × String) :=
  sortLe pairLe (flows.map pairKey).dedup

/-- One row of the `detect_rapid_roundtrips` findings. The source records
exactly these four fields; in particular no return latency is stored. -/
structure RoundtripRow where
  wallet_a : String
  wallet_b : String
  roundtrip_count : Nat
  total_transactions : Nat
deriving DecidableEq

/-- Sort a flow list by timestamp ascending (`sort_values('timestamp')`). -/
def sortByTimestamp (l : List UserFlow) : List UserFlow :=
  sortLe (fun f g => decide (f.timestamp ≤ g.timestamp)) l

/-- The `groupby('wallet_pair')` group of one unordered pair. -/
def rtGroup (flows : List UserFlow) (p : String × String) : List UserFlow :=
  flows.filter (fun f => decide (pairKey f = p))

/-- The `A→B` subsequence of the pair's group, sorted by timestamp. -/
def rtAToB (flows : List UserFlow) (p : String × String) : List UserFlow :=
  sortByTimestamp ((rtGroup flows p).filter (fun f => f.start_wallet == p.1))

/-- The `B→A` subsequence of the pair's group, sorted by timestamp. -/
def rtBToA (flows : List UserFlow) (p : String × String) : List UserFlow :=
  sortByTimestamp ((rtGroup flows p).filter (fun f => f.start_wallet == p.2))

/-- The pair's matched-return total: for every `A→B` flow at time `t`, the
number of `B→A` flows in `(t, t + hours·3600]`, summed over all `A→B` flows
(one `B→A` flow may be counted against several `A→B` flows). -/
def rtCount (flows : List UserFlow) (hours : Int) (p : String × String) : Nat :=
  ((rtAToB flows p).map fun o =>
    ((rtBToA flows p).filter fun r =>
      decide (o.timestamp < r.timestamp) &&
      decide (r.timestamp ≤ o.timestamp + hours * 3600)).length).sum

/-- The per-pair body of the `detect_rapid_roundtrips` loop: skip groups of
fewer than two flows or with an empty direction, and emit the pair when the
matched total reaches 2. -/
def rtForPair (flows : List UserFlow) (hours : Int) (p : String × String) :
    Option RoundtripRow :=
  if (rtGroup flows p).length < 2 then none
  else if (rtAToB flows p).length = 0 || (rtBToA flows p).length = 0 then none
  else if 2 ≤ rtCount flows hours p then
    some { wallet_a := p.1, wallet_b := p.2,
           roundtrip_count := rtCount flows hours p,
           total_transactions := (rtGroup flows p).length }
  else none

/-- The findings table of `detect_rapid_roundtrips`. -/
def rtFindings (flows : List UserFlow) (hours : Int) : List RoundtripRow :=
  (pairKeysOf flows).filterMap (rtForPair flows hours)

/-- The claim's (C4) description of the matched-return total, written directly
over the flow table: for each `A→B` flow at time `t`, the number of `B→A`
flows with timestamp in `(t, t + window]`, summed over all `A→B` flows. -/
def roundtripMatchTotal (flows : List UserFlow) (hours : Int) (a b : String) : Nat :=
  ((flows.filter fun f => f.start_wallet == a && f.end_wallet == b).map fun o =>
    (flows.filter fun r => r.start_wallet == b && r.end_wallet == a &&
      decide (o.timestamp < r.timestamp) &&
      decide (r.timestamp ≤ o.timestamp + hours * 3600)).length).sum

/-- Modelled from the spec (§4.2 / C4): the minimum observed return latency
of a pair — the least `r.timestamp - o.timestamp` over all matched
`(A→B, B→A)` flow pairs. The source computes no such value. -/
def minReturnLatency (flows : List UserFlow) (hours : Int) (a b : String) : Option Int :=
  let lats := (flows.filter fun f => f.start_wallet == a && f.end_wallet == b).flatMap
    fun o =>
      ((flows.filter fun r => r.start_wallet == b && r.end_wallet == a &&
        decide (o.timestamp < r.timestamp) &&
        decide (r.timestamp ≤ o.timestamp + hours * 3600)).map
          fun r => r.timestamp - o.timestamp)
  match lats with
  | [] => none
  | x :: xs => some (xs.foldl min x)

/-- `WashTradingDetector.detect_rapid_roundtrips`: the findings table plus,
when it is non-empty, the suspicious set updated with both pair columns. -/
def detectRapidRoundtrips (flows : List UserFlow) (hours : Int) (susp : List String) :
    List RoundtripRow × List String :=
  if (rtFindings flows hours).isEmpty then (rtFindings flows hours, susp)
  else (rtFindings flows hours,
        susp ++ (rtFindings flows hours).map (·.wallet_a) ++
          (rtFindings flows hours).map (·.wallet_b))

/-- One row of the `detect_high_frequency_pairs` findings. -/
structure HighFreqRow where
  wallet_a : String
  wallet_b : String
  transaction_count : Nat
deriving DecidableEq

/-- The findings table of `detect_high_frequency_pairs`: unordered pairs
whose total flow count reaches `minTx`, sorted by count descending. -/
def hfFindings (flows : List UserFlow) (minTx : Nat) : List HighFreqRow :=
  let counted := (pairKeysOf flows).map fun p =>
    (p, (flows.filter (fun f => decide (pairKey f = p))).length)
  let high := counted.filter (fun pc => decide (minTx ≤ pc.2))
  sortLe (fun a b => decide (b.transaction_count ≤ a.transaction_count))
    (high.map fun pc =>
      ({ wallet_a := pc.1.1, wallet_b := pc.1.2, transaction_count := pc.2 } : HighFreqRow))

/-- `WashTradingDetector.detect_high_frequency_pairs`: early-return with an
empty table when no pair reaches the threshold, otherwise the findings plus
the suspicious set updated with both pair columns. -/
def detectHighFrequencyPairs (flows : List UserFlow) (minTx : Nat) (susp : List String) :
    List HighFreqRow × List String :=
  if (hfFindings flows minTx).isEmpty then ([], susp)
  else (hfFindings flows minTx,
        susp ++ (hfFindings flows minTx).map (·.wallet_a) ++
          (hfFindings flows minTx).map (·.wallet_b))

/-- One row of the `detect_circular_patterns` findings. -/
structure CycleRow where
  cycle_length : Nat
  wallets : List String
deriving DecidableEq

/-- One iteration of the cycle loop in `detect_circular_patterns`: keep the
cycle when its length is in `[2, maxLen]`, and in that case also add its
wallets to the suspicious set. -/
def circStep (maxLen : Nat) (acc : List CycleRow × List String) (c : List String) :
    List CycleRow × List String :=
  if 2 ≤ c.length && c.length ≤ maxLen then
    (acc.1 ++ [{ cycle_length := c.length, wallets := c }], acc.2 ++ c)
  else acc

/-- `WashTradingDetector.detect_circular_patterns`. The enumeration
`list(nx.simple_cycles(G))` over the flow graph is passed in as `cycles`
(the detector itself only truncates to 1000, filters by length, and updates
the suspicious set cycle by cycle for the kept cycles). -/
def detectCircularPatterns (cycles : List (List String)) (maxLen : Nat) (susp : List String) :
    List CycleRow × List String :=
  (cycles.take 1000).foldl (circStep maxLen) ([], susp)

/-- One row of the `analyze_volume_concentration` table (informational). -/
structure VolumeRow where
  wallet : String
  total_volume_usd : ℚ
deriving DecidableEq

/-- `WashTradingDetector.analyze_volume_concentration`: combined inbound and
outbound USD volume per wallet (missing side 0), ranked descending, top `topN`.
Does not touch the suspicious set. -/
def analyzeVolumeConcentration (flows : List UserFlow) (topN : Nat) : List VolumeRow :=
  let wallets := sortLe strLe (flows.map (·.start_wallet) ++ flows.map (·.end_wallet)).dedup
  let vols := wallets.map fun w =>
    (w, ((flows.filter (fun f => f.start_wallet == w)).map (·.usd_value)).sum +
        ((flows.filter (fun f => f.end_wallet == w)).map (·.usd_value)).sum)
  let ranked := sortLe (fun a b => decide (b.2 ≤ a.2)) vols
  (ranked.take topN).map fun p => { wallet := p.1, total_volume_usd := p.2 }

/-- One row of the `detect_temporal_clustering` table (informational). -/
structure ClusterRow where
  window_start : Int
  transaction_count : Nat
deriving DecidableEq

/-- `WashTradingDetector.detect_temporal_clustering`: flows bucketed by
flooring timestamps to `minutes`-minute windows; windows with ≥ 3 flows. -/
def detectTemporalClustering (flows : List UserFlow) (minutes : Int) : List ClusterRow :=
  let w := minutes * 60
  let windows := sortLe (fun a b => decide (a ≤ b))
    (flows.map (fun f => f.timestamp.fdiv w * w)).dedup
  (windows.map fun t =>
      (t, (flows.filter (fun f => decide (f.timestamp.fdiv w * w = t))).length)).filterMap
    fun p => if 3 ≤ p.2 then some { window_start := p.1, transaction_count := p.2 } else none

/-- The six finding tables, keyed as in `WashTradingDetector.results`. -/
structure DetectorResults where
  self_transfers : List SelfTransferRow
  rapid_roundtrips : List RoundtripRow
  high_frequency_pairs : List HighFreqRow
  circular_patterns : List CycleRow
  volume_concentration : List VolumeRow
  temporal_clustering : List ClusterRow
deriving DecidableEq

/-- Detector output: finding tables plus the suspicious wallet set
(a list read up to membership, like the Python `set`). -/
structure DetectorState where
  results : DetectorResults
  suspicious_wallets : List String
deriving DecidableEq

/-- `WashTradingDetector.run_all_analyses`, threading the suspicious set
through the six detectors in source order. `cycles` stands for
`list(nx.simple_cycles(G))` on the flow graph. -/
def runAllAnalyses (flows : List UserFlow) (cycles : List (List String)) : DetectorState :=
  let p1 := detectSelfTransfers flows []
  let p2 := detectRapidRoundtrips flows 24 p1.2
  let p3 := detectHighFrequencyPairs flows 10 p2.2
  let p4 := detectCircularPatterns cycles 4 p3.2
  { results := { self_transfers := p1.1, rapid_roundtrips := p2.1,
                 high_frequency_pairs := p3.1, circular_patterns := p4.1,
                 volume_concentration := analyzeVolumeConcentration flows 20,
                 temporal_clustering := detectTemporalClustering flows 5 }
    suspicious_wallets := p4.2 }

/-! ### RiskScoreAnalyzer -/

/-- One row of `BotDetector.classification_results` as consumed by
`create_risk_analysis`. -/
structure BotRow where
  wallet : String
  bot_score : ℚ
  classification : String
  bot_confidence : String
deriving DecidableEq

/-- One row of the risk table built by
`RiskScoreAnalyzer.create_risk_analysis`. -/
structure RiskRow where
  wallet : String
  risk_level : String
  risk_score : ℚ
  bot_score : ℚ
  bot_classification : String
  bot_confidence : String
  is_wash_trading : Bool
  wash_trading_flags : List String
  wash_flag_count : Nat
  is_top_holder : Bool
  risk_threat : String
deriving DecidableEq

/-- `RiskScoreAnalyzer._calculate_risk_level`, step for step:
bot contribution, wash contribution gated on `is_wash_trading`, whale
override / premium, upper clamp at 100, then the level thresholds. -/
def calculateRiskLevel (bot_score : ℚ) (bot_classification : String)
    (is_wash_trading : Bool) (wash_flag_count : Nat) (is_top_holder : Bool) :
    String × ℚ :=
  let r1 : ℚ := 0 + bot_score * 50
  let r2 := if is_wash_trading then r1 + min ((wash_flag_count : ℚ) * 15) 50 else r1
  let r3 :=
    if is_top_holder then
      if is_wash_trading || bot_classification == "BOT" then (100 : ℚ) else r2 + 20
    else r2
  let risk := min r3 100
  let level :=
    if risk ≥ 75 then "CRITICAL"
    else if risk ≥ 50 then "HIGH"
    else if risk ≥ 25 then "MEDIUM"
    else "LOW"
  (level, risk)

/-- The `wash_flags` list collected in `create_risk_analysis`, iterating the
results dict in its insertion order. Each table contributes its name at most
once; `temporal_clustering` matches none of the per-name branches. -/
def washFlags (r : DetectorResults) (w : String) : List String :=
  (if !r.self_transfers.isEmpty && (r.self_transfers.map (·.wallet)).contains w
    then ["self_transfers"] else []) ++
  (if !r.rapid_roundtrips.isEmpty &&
      ((r.rapid_roundtrips.map (·.wallet_a)).contains w ||
       (r.rapid_roundtrips.map (·.wallet_b)).contains w)
    then ["rapid_roundtrips"] else []) ++
  (if !r.high_frequency_pairs.isEmpty &&
      ((r.high_frequency_pairs.map (·.wallet_a)).contains w ||
       (r.high_frequency_pairs.map (·.wallet_b)).contains w)
    then ["high_frequency_pairs"] else []) ++
  (if !r.circular_patterns.isEmpty &&
      r.circular_patterns.any (fun c => c.wallets.contains w)
    then ["circular_patterns"] else []) ++
  (if !r.volume_concentration.isEmpty &&
      (r.volume_concentration.map (·.wallet)).contains w
    then ["volume_concentration"] else [])

/-- `bot_score` of the first matching row of the bot table, 0 when absent. -/
def botScoreOf (botResults : List BotRow) (w : String) : ℚ :=
  match botResults.find? (fun b => b.wallet == w) with
  | some b => b.bot_score
  | none => 0

/-- `classification` of the first matching bot row, `"UNKNOWN"` when absent. -/
def botClassOf (botResults : List BotRow) (w : String) : String :=
  match botResults.find? (fun b => b.wallet == w) with
  | some b => b.classification
  | none => "UNKNOWN"

/-- `bot_confidence` of the first matching bot row, `"N/A"` when absent. -/
def botConfOf (botResults : List BotRow) (w : String) : String :=
  match botResults.find? (fun b => b.wallet == w) with
  | some b => b.bot_confidence
  | none => "N/A"

/-- The row `create_risk_analysis` builds for one wallet. -/
def riskRowFor (det : DetectorState) (botResults : List BotRow)
    (topHolders : List String) (w : String) : RiskRow :=
  let bs := botScoreOf botResults w
  let bc := botClassOf botResults w
  let iswash := det.suspicious_wallets.contains w
  let flags := washFlags det.results w
  let istop := topHolders.contains w
  let lr := calculateRiskLevel bs bc iswash flags.length istop
  { wallet := w
    risk_level := lr.1
    risk_score := lr.2
    bot_score := bs
    bot_classification := bc
    bot_confidence := botConfOf botResults w
    is_wash_trading := iswash
    wash_trading_flags := flags
    wash_flag_count := flags.length
    is_top_holder := istop
    risk_threat :=
      if bc == "BOT" && iswash then "CRITICAL"
      else if bc == "BOT" || iswash then "HIGH"
      else if bc == "UNCERTAIN" then "MEDIUM"
      else "LOW" }

/-- `RiskScoreAnalyzer.create_risk_analysis`: one row per wallet in
`set(bot_results.wallet) | suspicious_wallets` (a set, modelled as a deduped
list), finally sorted by `risk_score` descending. -/
def createRiskAnalysis (det : DetectorState) (botResults : List BotRow)
    (topHolders : List String) : List RiskRow :=
  let allWallets := (botResults.map (·.wallet) ++ det.suspicious_wallets).dedup
  sortLe (fun a b => decide (b.risk_score ≤ a.risk_score))
    (allWallets.map (riskRowFor det botResults topHolders))

/-- The holder metrics dict produced by
`HolderAnalyzer.calculate_concentration_metrics`. -/
structure HolderMetrics where
  top_3_ratio : ℚ
  top_10_ratio : ℚ
  whale_dominance : ℚ
  gini_coefficient : ℚ
deriving DecidableEq

/-- Output of `RiskScoreAnalyzer.calculate_token_risk_score` (score plus the
`risk_components` breakdown). -/
structure TokenRisk where
  token_risk_score : ℚ
  concentration_risk : ℚ
  bot_activity_risk : ℚ
  wash_trading_risk : ℚ
  bot_ratio : ℚ
  wash_ratio : ℚ
deriving DecidableEq

/-- `RiskScoreAnalyzer.calculate_token_risk_score`. `none` models the falsy
(empty) `holder_metrics` dict, which short-circuits to an all-zero result. -/
def calculateTokenRiskScore (metrics : Option HolderMetrics)
    (riskResults : List RiskRow) : TokenRisk :=
  match metrics with
  | none => { token_risk_score := 0, concentration_risk := 0, bot_activity_risk := 0,
              wash_trading_risk := 0, bot_ratio := 0, wash_ratio := 0 }
  | some m =>
    let conc0 : ℚ := min (m.top_10_ratio * 1.25) 100
    let conc := if m.gini_coefficient > 0.9 then max conc0 90 else conc0
    let total := riskResults.length
    let botCount :=
      if 0 < total then (riskResults.filter (fun r => r.bot_classification == "BOT")).length
      else 0
    let botRatio : ℚ := if 0 < total then (botCount : ℚ) / (total : ℚ) else 0
    let botScore : ℚ := min (botRatio * 333) 100
    let washCount := if 0 < total then (riskResults.filter (·.is_wash_trading)).length else 0
    let washRatio : ℚ := if 0 < total then (washCount : ℚ) / (total : ℚ) else 0
    let washScore : ℚ := min (washRatio * 500) 100
    { token_risk_score := conc * 0.40 + botScore * 0.30 + washScore * 0.30
      concentration_risk := conc
      bot_activity_risk := botScore
      wash_trading_risk := washScore
      bot_ratio := botRatio
      wash_ratio := washRatio }

/-! ### HolderAnalyzer -/

/-- One entry of the raw holder snapshot (`addressTopHolders[chain]`).
`address`, `entity_name`, `label_name` are `none` when the corresponding JSON
field is missing or empty. -/
structure HolderEntry where
  address : Option String
  entity_name : Option String
  label_name : Option String
  balance : ℚ
  usd : ℚ
  pctOfCap : ℚ
deriving DecidableEq

/-- `HolderAnalyzer._extract_label`: entity name, else label name, else
`"Wallet"` (falsy, i.e. empty, names fall through). -/
def extractLabel (e : HolderEntry) : String :=
  let en := e.entity_name.getD ""
  if en != "" then en
  else
    let ln := e.label_name.getD ""
    if ln != "" then ln else "Wallet"

/-- One row of `HolderAnalyzer.df_holders`. -/
structure HolderRow where
  address : String
  label : String
  balance : ℚ
  usd_value : ℚ
  holding_pct : ℚ
  rank : Nat
deriving DecidableEq

/-- `HolderAnalyzer.process_holder_data`: build rows with
`holding_pct = pctOfCap · 100`, sort descending by holding percentage and
assign 1-based ranks. -/
def processHolderData (holders : List HolderEntry) : List HolderRow :=
  let rows := holders.map fun e =>
    ({ address := e.address.getD "Unknown"
       label := extractLabel e
       balance := e.balance
       usd_value := e.usd
       holding_pct := e.pctOfCap * 100
       rank := 0 } : HolderRow)
  let sorted := sortLe (fun a b => decide (b.holding_pct ≤ a.holding_pct)) rows
  sorted.enum.map fun p => { p.2 with rank := p.1 + 1 }

/-- `HolderAnalyzer.calculate_concentration_metrics`: Top-3/Top-10 sums,
top-1 dominance, and the Gini coefficient over holding percentages sorted
ascending with 1-based rank. -/
def calculateConcentrationMetrics (dfHolders : List HolderRow) : HolderMetrics :=
  if dfHolders.isEmpty then
    { top_3_ratio := 0, top_10_ratio := 0, whale_dominance := 0, gini_coefficient := 0 }
  else
    let top3 := ((dfHolders.take 3).map (·.holding_pct)).sum
    let top10 := ((dfHolders.take 10).map (·.holding_pct)).sum
    let top1 := match dfHolders with
      | [] => (0 : ℚ)
      | h :: _ => h.holding_pct
    let sortedH := sortLe (fun a b => decide (a ≤ b)) (dfHolders.map (·.holding_pct))
    let n := sortedH.length
    let gini :=
      if n = 0 then (0 : ℚ)
      else
        let numer := (sortedH.enum.map fun p => 2 * ((p.1 + 1 : ℕ) : ℚ) * p.2).sum
        let denom := (n : ℚ) * sortedH.sum
        numer / denom - ((n : ℚ) + 1) / (n : ℚ)
    { top_3_ratio := top3, top_10_ratio := top10,
      whale_dominance := top1, gini_coefficient := gini }

/-- `HolderAnalyzer.run_analysis` whale set: the top-50 addresses. -/
def topHolderAddresses (dfHolders : List HolderRow) : List String :=
  (dfHolders.take 50).map (·.address)

/-- Modelled from the spec (§4.5 / C8): the Gini formula
`G = (2·Σ(i·xᵢ))/(n·Σxᵢ) − (n+1)/n` over shares `xs` already sorted
ascending, `i` the 1-based rank. -/
def giniSpecFormula (xs : List ℚ) : ℚ :=
  let n := xs.length
  2 * (xs.enum.map fun p => ((p.1 + 1 : ℕ) : ℚ) * p.2).sum / ((n : ℚ) * xs.sum)
    - ((n : ℚ) + 1) / (n : ℚ)

/-! ### LiveDataFetcher -/

/-- One raw transfer row as returned by the transfers endpoint. `logIndex`
is carried by the raw payload but never read by
`process_transfers_to_user_flows`, which orders hops by `blockNumber`. -/
structure RawTransfer where
  transactionHash : String
  blockTimestamp : Int
  blockNumber : Int
  logIndex : Int
  fromAddress : String
  toAddress : String
  fromEntityType : Option String
  toEntityType : Option String
  historicalUSD : Option ℚ
deriving DecidableEq

/-- The intermediary entity types excluded from flow endpoints. -/
def intermediaries : List String := ["dex", "cex", "dex_aggregator", "bridge", "mixer"]

/-- `entity type ∈ intermediaries` (a missing type is not an intermediary). -/
def isIntermediary : Option String → Bool
  | some s => intermediaries.contains s
  | none => false

/-- The body of the per-transaction loop of
`process_transfers_to_user_flows`, applied to one `tx_hash` group: sort by
`blockNumber`, scan forward for the first non-intermediary sender, scan
backward for the first non-intermediary receiver, and emit a flow only when
both are found and truthy (non-empty). -/
def processGroup (txh : String) (rows : List RawTransfer) : Option UserFlow :=
  match sortLe (fun a b => decide (a.blockNumber ≤ b.blockNumber)) rows with
  | [] => none
  | first :: rest =>
    match (first :: rest).find? (fun r => !isIntermediary r.fromEntityType),
          (first :: rest).reverse.find? (fun r => !isIntermediary r.toEntityType) with
    | some sr, some er =>
      if sr.fromAddress != "" && er.toAddress != "" then
        some { transaction_hash := txh
               start_wallet := sr.fromAddress
               end_wallet := er.toAddress
               start_entity_type := sr.fromEntityType
               end_entity_type := er.toEntityType
               timestamp := first.blockTimestamp
               block_number := first.blockNumber
               usd_value := ((first :: rest).map fun r => r.historicalUSD.getD 0).sum
               hop_count := (first :: rest).length
               is_self_transfer := sr.fromAddress == er.toAddress }
      else none
    | _, _ => none

/-- `LiveDataFetcher.process_transfers_to_user_flows`: group by transaction
hash and run the per-group extraction. -/
def processTransfersToUserFlows (rows : List RawTransfer) : List UserFlow :=
  (groupKeys (·.transactionHash) rows).filterMap fun txh =>
    processGroup txh (rows.filter (fun r => r.transactionHash == txh))

/-- Modelled from the spec (§4.1 / C7): the same extraction but with each
transaction group sorted by `log_index`, as the spec describes it. -/
def processGroupSpecLogIndex (txh : String) (rows : List RawTransfer) : Option UserFlow :=
  match sortLe (fun a b => decide (a.logIndex ≤ b.logIndex)) rows with
  | [] => none
  | first :: rest =>
    match (first :: rest).find? (fun r => !isIntermediary r.fromEntityType),
          (first :: rest).reverse.find? (fun r => !isIntermediary r.toEntityType) with
    | some sr, some er =>
      if sr.fromAddress != "" && er.toAddress != "" then
        some { transaction_hash := txh
               start_wallet := sr.fromAddress
               end_wallet := er.toAddress
               start_entity_type := sr.fromEntityType
               end_entity_type := er.toEntityType
               timestamp := first.blockTimestamp
               block_number := first.blockNumber
               usd_value := ((first :: rest).map fun r => r.historicalUSD.getD 0).sum
               hop_count := (first :: rest).length
               is_self_transfer := sr.fromAddress == er.toAddress }
      else none
    | _, _ => none

/-- Modelled from the spec (§4.1 / C7): flow extraction over log_index-sorted
groups. -/
def processTransfersSpecLogIndex (rows : List RawTransfer) : List UserFlow :=
  (groupKeys (·.transactionHash) rows).filterMap fun txh =>
    processGroupSpecLogIndex txh (rows.filter (fun r => r.transactionHash == txh))

/-! ### BotDetector

Endpoint payloads are modelled as typed optional lists: `none` is the absence
marker (a failed fetch, a falsy payload, or a payload without the expected
key), `some []` is a present payload whose record list is empty. -/

/-- One record of the transfers endpoint payload. -/
structure TransferRec where
  blockTimestamp : Int
  historicalUSD : Option ℚ
deriving DecidableEq

/-- One record of the counterparties endpoint payload. -/
structure CounterpartyRec where
  totalVolumeUSD : ℚ
  entityType : Option String
deriving DecidableEq

/-- One per-chain record of the intelligence endpoint payload: the tag names
and the truthiness of `entityPredictions`. -/
structure ChainIntel where
  tags : List String
  hasEntityPredictions : Bool
deriving DecidableEq

/-- One record of the balances endpoint payload. -/
structure BalanceRec where
  balanceUSD : ℚ
deriving DecidableEq

/-- One record of the flow endpoint payload. -/
structure FlowRec where
  inflowUSD : ℚ
  outflowUSD : ℚ
deriving DecidableEq

/-- The per-wallet multi-endpoint data (`BotDetector.wallet_data[wallet]`). -/
structure WalletData where
  transfers : Option (List TransferRec)
  counterparties : Option (List CounterpartyRec)
  intelligence : Option (List ChainIntel)
  balances : Option (List BalanceRec)
  flow : Option (List FlowRec)
deriving DecidableEq

/-- Features from the transfers payload; `none` = key absent from the dict. -/
structure TransferFeats where
  api_transfer_count : Option Nat
  api_total_volume : Option ℚ
  api_txs_per_hour : Option ℚ
  api_off_hours_ratio : Option ℚ
  api_time_regularity_cv : Option ℚ
  api_value_cv : Option ℚ
  api_avg_decimal_places : Option ℚ
deriving DecidableEq

/-- Features from the counterparties payload. -/
structure CounterpartyFeats where
  cp_unique_counterparties : Option Nat
  cp_top_counterparty_ratio : Option ℚ
  cp_dex_ratio : Option ℚ
  cp_cex_ratio : Option ℚ
deriving DecidableEq

/-- Features from the intelligence payload. -/
structure IntelFeats where
  intel_tag_count : Option Nat
  intel_has_entity_prediction : Option Bool
  intel_has_bot_tag : Option Bool
deriving DecidableEq

/-- Features from the balances payload. -/
structure BalanceFeats where
  bal_token_diversity : Option Nat
  bal_total_usd : Option ℚ
  bal_portfolio_concentration : Option ℚ
deriving DecidableEq

/-- Feature from the flow payload. -/
structure FlowFeats where
  flow_balance_ratio : Option ℚ
deriving DecidableEq

/-- The feature dict built by `BotDetector.extract_features`, grouped by
source payload. -/
structure Features where
  tf : TransferFeats
  cp : CounterpartyFeats
  intel : IntelFeats
  bal : BalanceFeats
  flow : FlowFeats
deriving DecidableEq

/-- Arithmetic mean (`pandas.Series.mean` on a non-empty series). -/
def listMean (l : List ℚ) : ℚ := l.sum / l.length

/-- Maximum of a USD column (`Series.max` on a non-empty series). -/
def listMax : List ℚ → ℚ
  | [] => 0
  | x :: xs => xs.foldl max x

/-- Maximum of an integer timestamp column. -/
def intMax : List Int → Int
  | [] => 0
  | x :: xs => xs.foldl max x

/-- Minimum of an integer timestamp column. -/
def intMin : List Int → Int
  | [] => 0
  | x :: xs => xs.foldl min x

/-- Consecutive differences in dataframe order (`Series.diff().dropna()`). -/
def diffs : List Int → List Int
  | a :: b :: rest => (b - a) :: diffs (b :: rest)
  | _ => []

/-- Count up to `k` factors of 10 of an integer. -/
def tzCount : Nat → Int → Nat
  | 0, _ => 0
  | k + 1, n => if n % 10 = 0 then 1 + tzCount k (n / 10) else 0

/-- The `count_decimals` heuristic of `extract_features`: format the value
with 10 decimal places, strip trailing zeros, count the remaining decimals.
The float round-half-even of the f-string is modelled as round-half-up on the
exact rational (no claim depends on the value of this feature). -/
def countDecimals (v : ℚ) : Nat :=
  if v = 0 then 0
  else
    let scaled : Int := ⌊v * 10 ^ 10 + 1 / 2⌋
    if scaled = 0 then 0 else 10 - tzCount 10 scaled

/-- Boolean prefix test on character lists. -/
def prefixB : List Char → List Char → Bool
  | [], _ => true
  | _ :: _, [] => false
  | a :: as, b :: bs => a == b && prefixB as bs

/-- Boolean infix (substring) test on character lists. -/
def infixB (p : List Char) : List Char → Bool
  | [] => p.isEmpty
  | c :: rest => prefixB p (c :: rest) || infixB p rest

/-- Python `keyword in tag.lower()`. -/
def containsKeyword (kw tag : String) : Bool :=
  infixB kw.toList tag.toLower.toList

/-- The bot-indicative keywords of `extract_features`. -/
def botKeywords : List String := ["bot", "mev", "flashbot", "arbitrage", "automated", "sniper"]

/-- Transfers block of `extract_features`. `std` stands for
`pandas.Series.std` (sample standard deviation), left abstract because the
source computes it in floating point; no claim depends on its value. -/
def extractTransferFeats (std : List ℚ → ℚ) (o : Option (List TransferRec)) : TransferFeats :=
  match o with
  | none => ⟨none, none, none, none, none, none, none⟩
  | some ts =>
    if ts.isEmpty then ⟨none, none, none, none, none, none, none⟩
    else
      let count := ts.length
      let total := (ts.map fun t => t.historicalUSD.getD 0).sum
      let tsList := ts.map (·.blockTimestamp)
      let timeSpan : ℚ := ((intMax tsList - intMin tsList : Int) : ℚ) / 3600
      let txsPerHour : ℚ := (count : ℚ) / max timeSpan 1
      let offHours := (ts.filter fun t =>
        let h := (t.blockTimestamp.fdiv 3600).emod 24
        decide (0 ≤ h) && decide (h ≤ 6)).length
      let offRatio : ℚ := (offHours : ℚ) / (count : ℚ)
      let ds := (diffs tsList).map fun d => (d : ℚ)
      let cv := if ds.isEmpty then none else some (std ds / (listMean ds + 1))
      let usdVals := ts.filterMap (·.historicalUSD)
      let vcv := if usdVals.isEmpty then none else some (std usdVals / (listMean usdVals + 1))
      let adp := if usdVals.isEmpty then none
        else some (listMean (usdVals.map fun v => ((countDecimals v : Nat) : ℚ)))
      ⟨some count, some total, some txsPerHour, some offRatio, cv, vcv, adp⟩

/-- Counterparties block of `extract_features`. -/
def extractCounterpartyFeats (o : Option (List CounterpartyRec)) : CounterpartyFeats :=
  match o with
  | none => ⟨none, none, none, none⟩
  | some cps =>
    if cps.isEmpty then ⟨none, none, none, none⟩
    else
      let count := cps.length
      let totalVol := (cps.map (·.totalVolumeUSD)).sum
      let topRatio := if totalVol > 0 then
          some ((match cps with | c :: _ => c.totalVolumeUSD | [] => 0) / totalVol)
        else none
      let dexRatio : ℚ := ((cps.filter fun c => c.entityType == some "dex").length : ℚ) / (count : ℚ)
      let cexRatio : ℚ := ((cps.filter fun c => c.entityType == some "cex").length : ℚ) / (count : ℚ)
      ⟨some count, topRatio, some dexRatio, some cexRatio⟩

/-- Intelligence block of `extract_features` (an empty chain list is falsy
and skips the block). -/
def extractIntelFeats (o : Option (List ChainIntel)) : IntelFeats :=
  match o with
  | none => ⟨none, none, none⟩
  | some chains =>
    if chains.isEmpty then ⟨none, none, none⟩
    else
      let allTags := (chains.map (·.tags)).flatten
      let hasPred := chains.any (·.hasEntityPredictions)
      let hasBotTag := allTags.any fun tag => botKeywords.any fun kw => containsKeyword kw tag
      ⟨some allTags.dedup.length, some hasPred, some hasBotTag⟩

/-- Balances block of `extract_features`. -/
def extractBalanceFeats (o : Option (List BalanceRec)) : BalanceFeats :=
  match o with
  | none => ⟨none, none, none⟩
  | some bs =>
    if bs.isEmpty then ⟨none, none, none⟩
    else
      let total := (bs.map (·.balanceUSD)).sum
      let conc := if total > 0 then some (listMax (bs.map (·.balanceUSD)) / total) else none
      ⟨some bs.length, some total, conc⟩

/-- Flow block of `extract_features`. -/
def extractFlowFeats (o : Option (List FlowRec)) : FlowFeats :=
  match o with
  | none => ⟨none⟩
  | some fl =>
    if fl.isEmpty then ⟨none⟩
    else
      let totalIn := (fl.map (·.inflowUSD)).sum
      let totalOut := (fl.map (·.outflowUSD)).sum
      if totalIn + totalOut > 0 then ⟨some ((totalIn - totalOut) / (totalIn + totalOut))⟩
      else ⟨none⟩

/-- `BotDetector.extract_features`: each endpoint payload feeds only its own
feature block; an absent payload leaves the block's features unset. -/
def extractFeatures (std : List ℚ → ℚ) (d : WalletData) : Features :=
  { tf := extractTransferFeats std d.transfers
    cp := extractCounterpartyFeats d.counterparties
    intel := extractIntelFeats d.intelligence
    bal := extractBalanceFeats d.balances
    flow := extractFlowFeats d.flow }

/-- Timing category raw points (max 5). -/
def timingScore (f : Features) : ℚ :=
  (if f.tf.api_txs_per_hour.getD 0 > 10 then 1.5 else 0) +
  (if f.tf.api_time_regularity_cv.getD 1 < 0.5 then 1.5 else 0) +
  (if f.tf.api_off_hours_ratio.getD 0 > 0.4 then 2 else 0)

/-- Value-pattern category raw points (max 3). -/
def patternScore (f : Features) : ℚ :=
  (if f.tf.api_avg_decimal_places.getD 0 ≥ 4 then 1.5 else 0) +
  (if f.tf.api_value_cv.getD 1 < 0.3 then 1.5 else 0)

/-- Counterparty category raw points (max 4). -/
def counterpartyScore (f : Features) : ℚ :=
  (if f.cp.cp_unique_counterparties.getD 100 < 5 then 2 else 0) +
  (if f.cp.cp_top_counterparty_ratio.getD 0 > 0.6 then 2 else 0)

/-- Intelligence category raw points (max 3); the entity-prediction rule is
an `elif` of the bot-tag rule. -/
def intelScore (f : Features) : ℚ :=
  if f.intel.intel_has_bot_tag.getD false then 3
  else if f.intel.intel_has_entity_prediction.getD false then 1
  else 0

/-- Portfolio category raw points (max 2). -/
def portfolioScore (f : Features) : ℚ :=
  (if f.bal.bal_portfolio_concentration.getD 0 > 0.9 then 1 else 0) +
  (if f.bal.bal_token_diversity.getD 100 < 3 then 1 else 0)

/-- Flow category raw points (max 1): the balanced-flow rule fires when the
absolute balance ratio is below 0.1 — also when the feature is absent and
defaults to 0. -/
def flowScore (f : Features) : ℚ :=
  if |f.flow.flow_balance_ratio.getD 0| < 0.1 then 1 else 0

/-- `BotDetector.calculate_bot_score`: weighted sum of the six category
sub-scores (`points / category max · weight`), normalised by the total weight
(which is 1.0, accumulated unconditionally for every category). -/
def calculateBotScore (f : Features) : ℚ :=
  let score :=
    timingScore f / 5 * 0.20 +
    patternScore f / 3 * 0.20 +
    counterpartyScore f / 4 * 0.20 +
    intelScore f / 3 * 0.25 +
    portfolioScore f / 2 * 0.10 +
    flowScore f / 1 * 0.05
  let maxScore : ℚ := 0.20 + 0.20 + 0.20 + 0.25 + 0.10 + 0.05
  if maxScore > 0 then score / maxScore else 0

/-- Number of flows with the given start wallet (`value_counts` entry). -/
def startCount (flows : List UserFlow) (w : String) : Nat :=
  (flows.filter fun f => f.start_wallet == w).length

/-- Number of flows with the given end wallet. -/
def endCount (flows : List UserFlow) (w : String) : Nat :=
  (flows.filter fun f => f.end_wallet == w).length

/-- The eligible-wallet list of `BotDetector.classify_wallets`: the index of
the start-wallet `value_counts` (so only wallets that appear as
`start_wallet`), with the end-wallet counts reindexed onto it (missing
entries 0), summed, sorted descending and thresholded at `minTx`. -/
def eligibleWallets (flows : List UserFlow) (minTx : Nat) : List String :=
  let startIdx := (flows.map (·.start_wallet)).dedup
  let combined := startIdx.map fun w => (w, startCount flows w + endCount flows w)
  let sorted := sortLe (fun a b => decide (b.2 ≤ a.2)) combined
  (sorted.filter fun p => decide (minTx ≤ p.2)).map (·.1)

/-! ### Concrete inputs used by the claim witnesses and counterexamples -/

/-- All-absent wallet data: every endpoint fetch returned the absence
marker. -/
def emptyWalletData : WalletData :=
  { transfers := none, counterparties := none, intelligence := none,
    balances := none, flow := none }

/-- A concrete stand-in for the abstract sample-standard-deviation
parameter, used to instantiate universally quantified results. -/
def stdZero : List ℚ → ℚ := fun _ => 0

/-- Three flows between `alice` and `bob`: one `alice→bob` at `t = 0` and two
`bob→alice` returns at 3600 and 7200 seconds. -/
def flowsC4 : List UserFlow :=
  [{ transaction_hash := "x1", start_wallet := "alice", end_wallet := "bob",
     start_entity_type := none, end_entity_type := none,
     timestamp := 0, block_number := 1, usd_value := 5,
     hop_count := 1, is_self_transfer := false },
   { transaction_hash := "x2", start_wallet := "bob", end_wallet := "alice",
     start_entity_type := none, end_entity_type := none,
     timestamp := 3600, block_number := 2, usd_value := 5,
     hop_count := 1, is_self_transfer := false },
   { transaction_hash := "x3", start_wallet := "bob", end_wallet := "alice",
     start_entity_type := none, end_entity_type := none,
     timestamp := 7200, block_number := 3, usd_value := 5,
     hop_count := 1, is_self_transfer := false }]

/-- Two hops of one transaction whose `block_number` order disagrees with
the `log_index` order, with distinct non-intermediary senders. -/
def rowsC7 : List RawTransfer :=
  [{ transactionHash := "t", blockTimestamp := 50, blockNumber := 5, logIndex := 2,
     fromAddress := "A", toAddress := "X",
     fromEntityType := none, toEntityType := some "dex", historicalUSD := some 10 },
   { transactionHash := "t", blockTimestamp := 50, blockNumber := 6, logIndex := 1,
     fromAddress := "B", toAddress := "C",
     fromEntityType := none, toEntityType := none, historicalUSD := some 5 }]

/-- The flow the source's extraction (blockNumber order) yields on
`rowsC7`. -/
def flowC7 : UserFlow :=
  { transaction_hash := "t", start_wallet := "A", end_wallet := "C",
    start_entity_type := none, end_entity_type := none,
    timestamp := 50, block_number := 5, usd_value := 15,
    hop_count := 2, is_self_transfer := false }

/-- The flow the claim's `log_index`-ordered extraction yields on
`rowsC7`. -/
def flowC7spec : UserFlow :=
  { transaction_hash := "t", start_wallet := "B", end_wallet := "C",
    start_entity_type := none, end_entity_type := none,
    timestamp := 50, block_number := 6, usd_value := 15,
    hop_count := 2, is_self_transfer := false }

/-- Equal two-holder snapshot for the C8 witness. -/
def holdersC8 : List HolderEntry :=
  [{ address := some "h1", entity_name := none, label_name := none,
     balance := 10, usd := 10, pctOfCap := 1/2 },
   { address := some "h2", entity_name := none, label_name := none,
     balance := 10, usd := 10, pctOfCap := 1/2 }]

/-- Concrete input for the C9 witness: a single two-hop transaction from
`alice` through a dex back to `alice`. -/
def rowsC9 : List RawTransfer :=
  [{ transactionHash := "tx", blockTimestamp := 100, blockNumber := 7, logIndex := 0,
     fromAddress := "alice", toAddress := "pool",
     fromEntityType := none, toEntityType := some "dex", historicalUSD := some 3 },
   { transactionHash := "tx", blockTimestamp := 100, blockNumber := 8, logIndex := 1,
     fromAddress := "pool", toAddress := "alice",
     fromEntityType := some "dex", toEntityType := none, historicalUSD := some 4 }]

/-- The flow the embedding extracts from `rowsC9`. -/
def flowC9 : UserFlow :=
  { transaction_hash := "tx", start_wallet := "alice", end_wallet := "alice",
    start_entity_type := none, end_entity_type := none,
    timestamp := 100, block_number := 7, usd_value := 7,
    hop_count := 2, is_self_transfer := true }

/-- Concrete input for the C10 witness: `wA` starts one flow, `wB` only ever
receives. -/
def flowsC10 : List UserFlow :=
  [{ transaction_hash := "tx1", start_wallet := "wA", end_wallet := "wB",
     start_entity_type := none, end_entity_type := none,
     timestamp := 0, block_number := 1, usd_value := 0,
     hop_count := 1, is_self_transfer := false }]

/-- One `walletA → walletB` flow: `walletA` is never suspicious, but lands in
the volume-concentration top-20 table. -/
def flowsC1 : List UserFlow :=
  [{ transaction_hash := "t1", start_wallet := "walletA", end_wallet := "walletB",
     start_entity_type := none, end_entity_type := none,
     timestamp := 0, block_number := 1, usd_value := 100,
     hop_count := 1, is_self_transfer := false }]

/-- Bot table for the C1/C2 concrete runs: `walletA` scored 0, HUMAN. -/
def botsC1 : List BotRow :=
  [{ wallet := "walletA", bot_score := 0, classification := "HUMAN",
     bot_confidence := "LOW" }]

/-- The row the risk analysis produces for `walletA` on `flowsC1` with no
top holders. -/
def rowC1 : RiskRow :=
  { wallet := "walletA", risk_level := "LOW", risk_score := 0, bot_score := 0,
    bot_classification := "HUMAN", bot_confidence := "LOW", is_wash_trading := false,
    wash_trading_flags := ["volume_concentration"], wash_flag_count := 1,
    is_top_holder := false, risk_threat := "LOW" }

/-- The row the risk analysis produces for `walletA` on `flowsC1` when
`walletA` is also a top holder: the +20 whale premium, no wash points. -/
def rowC2 : RiskRow :=
  { wallet := "walletA", risk_level := "LOW", risk_score := 20, bot_score := 0,
    bot_classification := "HUMAN", bot_confidence := "LOW", is_wash_trading := false,
    wash_trading_flags := ["volume_concentration"], wash_flag_count := 1,
    is_top_holder := true, risk_threat := "LOW" }


/-! ### Shared lemmas about the sorting model -/

theorem insertLe_perm {α : Type} (le : α → α → Bool) (x : α) (l : List α) :
    (insertLe le x l).Perm (x :: l) := by
  induction l with
  | nil => simp [insertLe]
  | cons y ys ih =>
    by_cases h : le x y
    · simp [insertLe, h]
    · simp only [insertLe, h, if_neg, Bool.false_eq_true, not_false_iff]
      exact (ih.cons y).trans (List.Perm.swap x y ys)

theorem sortLe_perm {α : Type} (le : α → α → Bool) (l : List α) :
    (sortLe le l).Perm l := by
  induction l with
  | nil => simp [sortLe]
  | cons x xs ih => exact (insertLe_perm le x (sortLe le xs)).trans (ih.cons x)

theorem mem_sortLe {α : Type} {le : α → α → Bool} {x : α} {l : List α} :
    x ∈ sortLe le l ↔ x ∈ l :=
  (sortLe_perm le l).mem_iff

theorem length_sortLe {α : Type} (le : α → α → Bool) (l : List α) :
    (sortLe le l).length = l.length :=
  (sortLe_perm le l).length_eq

theorem sum_map_sortLe {α M : Type} [AddCommMonoid M] (le : α → α → Bool) (f : α → M)
    (l : List α) :
    ((sortLe le l).map f).sum = (l.map f).sum :=
  ((sortLe_perm le l).map f).sum_eq

theorem length_filter_sortLe {α : Type} (le : α → α → Bool) (p : α → Bool) (l : List α) :
    ((sortLe le l).filter p).length = (l.filter p).length :=
  ((sortLe_perm le l).filter p).length_eq

theorem uint32_eq_of_not_lt {u v : UInt32} (h1 : ¬ u < v) (h2 : ¬ v < u) : u = v := by
  have h1' : ¬ u.toNat < v.toNat := fun h => h1 h
  have h2' : ¬ v.toNat < u.toNat := fun h => h2 h
  exact UInt32.ext (by omega)

theorem uint32_not_lt_of_lt {u v : UInt32} (h : u < v) : ¬ v < u := by
  intro hh
  have h' : u.toNat < v.toNat := h
  have hh' : v.toNat < u.toNat := hh
  omega

theorem charListLt_connex : ∀ x y : List Char,
    charListLt x y = false → x ≠ y → charListLt y x = true
  | [], [], _, hne => absurd rfl hne
  | [], _ :: _, h, _ => by simp [charListLt] at h
  | _ :: _, [], _, _ => rfl
  | c :: cs, d :: ds, h, hne => by
    simp only [charListLt] at h ⊢
    by_cases hcd : c.val < d.val
    · simp [hcd] at h
    · by_cases hdc : d.val < c.val
      · simp [hdc]
      · have hv : c.val = d.val := uint32_eq_of_not_lt hcd hdc
        have hcd' : c = d := Char.ext hv
        subst hcd'
        simp only [hcd, if_false, hdc] at h ⊢
        exact charListLt_connex cs ds h (fun he => hne (by rw [he]))

theorem charListLt_asymm : ∀ x y : List Char,
    charListLt x y = true → charListLt y x = false
  | [], [], h => by simp [charListLt] at h
  | [], _ :: _, _ => rfl
  | _ :: _, [], h => by simp [charListLt] at h
  | c :: cs, d :: ds, h => by
    simp only [charListLt] at h ⊢
    by_cases hcd : c.val < d.val
    · have hdc : ¬ d.val < c.val := uint32_not_lt_of_lt hcd
      simp [hdc, hcd]
    · by_cases hdc : d.val < c.val
      · simp [hcd, hdc] at h
      · simp only [hcd, if_false, hdc] at h ⊢
        exact charListLt_asymm cs ds h

theorem strLe_total {a b : String} (h : strLe a b = false) : strLe b a = true := by
  unfold strLe strLt at h ⊢
  rw [Bool.or_eq_false_iff] at h
  obtain ⟨hlt, hbeq⟩ := h
  have hne : a ≠ b := by
    intro he
    rw [he] at hbeq
    simp at hbeq
  have htl : a.toList ≠ b.toList := fun he => hne (by
    have : a.data = b.data := he
    exact String.ext this)
  rw [charListLt_connex a.toList b.toList hlt htl]
  exact Bool.true_or _

theorem strLe_antisymm {a b : String} (h1 : strLe a b = true) (h2 : strLe b a = true) :
    a = b := by
  by_cases he : a = b
  · exact he
  · exfalso
    unfold strLe strLt at h1 h2
    have hab : (a == b) = false := beq_eq_false_iff_ne.mpr he
    have hba : (b == a) = false := beq_eq_false_iff_ne.mpr (Ne.symm he)
    rw [hab, Bool.or_false] at h1
    rw [hba, Bool.or_false] at h2
    rw [charListLt_asymm a.toList b.toList h1] at h2
    exact Bool.false_ne_true h2

theorem pairKey_sorted (f : UserFlow) : strLe (pairKey f).1 (pairKey f).2 = true := by
  unfold pairKey
  split
  · next h => exact h
  · next h => exact strLe_total (Bool.eq_false_iff.mpr h)

theorem mem_pairKeysOf {flows : List UserFlow} {p : String × String} :
    p ∈ pairKeysOf flows ↔ ∃ f ∈ flows, pairKey f = p := by
  unfold pairKeysOf
  rw [mem_sortLe, List.mem_dedup, List.mem_map]

theorem mem_pairKeysOf_sorted {flows : List UserFlow} {p : String × String}
    (h : p ∈ pairKeysOf flows) : strLe p.1 p.2 = true := by
  obtain ⟨f, -, rfl⟩ := mem_pairKeysOf.mp h
  exact pairKey_sorted f

theorem pairKey_eq_iff_start (f : UserFlow) (a b : String) (hab : strLe a b = true)
    (hs : f.start_wallet = a) :
    (pairKey f = (a, b)) ↔ f.end_wallet = b := by
  constructor
  · intro h
    unfold pairKey at h
    rw [hs] at h
    split at h
    · exact (Prod.mk.injEq _ _ _ _ ▸ h).2
    · obtain ⟨h1, h2⟩ := Prod.mk.injEq _ _ _ _ ▸ h
      rw [h1, h2]
  · intro he
    unfold pairKey
    rw [hs, he, if_pos hab]

theorem pairKey_eq_iff_end (f : UserFlow) (a b : String) (hab : strLe a b = true)
    (hs : f.start_wallet = b) :
    (pairKey f = (a, b)) ↔ f.end_wallet = a := by
  constructor
  · intro h
    unfold pairKey at h
    rw [hs] at h
    split at h
    · obtain ⟨h1, h2⟩ := Prod.mk.injEq _ _ _ _ ▸ h
      rw [h2, ← h1]
    · exact (Prod.mk.injEq _ _ _ _ ▸ h).1
  · intro he
    unfold pairKey
    rw [hs, he]
    split
    · next hba => rw [strLe_antisymm hab hba]
    · rfl

theorem filter_rtGroup_start (flows : List UserFlow) (a b : String)
    (hab : strLe a b = true) :
    (rtGroup flows (a, b)).filter (fun f => f.start_wallet == a) =
      flows.filter (fun f => f.start_wallet == a && f.end_wallet == b) := by
  unfold rtGroup
  rw [List.filter_filter]
  apply List.filter_congr
  intro f _
  by_cases hs : f.start_wallet = a
  · have hsb : (f.start_wallet == a) = true := beq_iff_eq.mpr hs
    by_cases he : f.end_wallet = b
    · have hpk : pairKey f = (a, b) := (pairKey_eq_iff_start f a b hab hs).mpr he
      simp [hpk, hsb, he]
    · have hpk : pairKey f ≠ (a, b) := fun h => he ((pairKey_eq_iff_start f a b hab hs).mp h)
      have heb : (f.end_wallet == b) = false := beq_eq_false_iff_ne.mpr he
      simp [hpk, hsb, heb]
  · have hsb : (f.start_wallet == a) = false := beq_eq_false_iff_ne.mpr hs
    simp [hsb]

theorem filter_rtGroup_end (flows : List UserFlow) (a b : String)
    (hab : strLe a b = true) :
    (rtGroup flows (a, b)).filter (fun f => f.start_wallet == b) =
      flows.filter (fun f => f.start_wallet == b && f.end_wallet == a) := by
  unfold rtGroup
  rw [List.filter_filter]
  apply List.filter_congr
  intro f _
  by_cases hs : f.start_wallet = b
  · have hsb : (f.start_wallet == b) = true := beq_iff_eq.mpr hs
    by_cases he : f.end_wallet = a
    · have hpk : pairKey f = (a, b) := (pairKey_eq_iff_end f a b hab hs).mpr he
      simp [hpk, hsb, he]
    · have hpk : pairKey f ≠ (a, b) := fun h => he ((pairKey_eq_iff_end f a b hab hs).mp h)
      have heb : (f.end_wallet == a) = false := beq_eq_false_iff_ne.mpr he
      simp [hpk, hsb, heb]
  · have hsb : (f.start_wallet == b) = false := beq_eq_false_iff_ne.mpr hs
    simp [hsb]

/-! ### Claims -/

theorem rtCount_eq_spec (flows : List UserFlow) (hours : Int) (a b : String)
    (hab : strLe a b = true) :
    rtCount flows hours (a, b) = roundtripMatchTotal flows hours a b := by
  unfold rtCount roundtripMatchTotal rtAToB rtBToA sortByTimestamp
  simp only [length_filter_sortLe]
  rw [sum_map_sortLe]
  rw [filter_rtGroup_start flows a b hab, filter_rtGroup_end flows a b hab]
  simp only [List.filter_filter]
  apply congrArg
  apply List.map_congr_left
  intro o _
  apply congrArg
  apply List.filter_congr
  intro r _
  cases hx : (r.start_wallet == b) <;> cases hy : (r.end_wallet == a) <;>
    cases h1 : decide (o.timestamp < r.timestamp) <;>
    cases h2 : decide (r.timestamp ≤ o.timestamp + hours * 3600) <;> rfl

theorem rt_guards (flows : List UserFlow) (hours : Int) (p : String × String)
    (h2 : 2 ≤ rtCount flows hours p) :
    2 ≤ (rtGroup flows p).length ∧
    (rtAToB flows p).length ≠ 0 ∧ (rtBToA flows p).length ≠ 0 := by
  have hxy : rtCount flows hours p ≤ (rtAToB flows p).length * (rtBToA flows p).length := by
    unfold rtCount
    have hb : ∀ z ∈ ((rtAToB flows p).map fun o =>
        ((rtBToA flows p).filter fun r =>
          decide (o.timestamp < r.timestamp) &&
          decide (r.timestamp ≤ o.timestamp + hours * 3600)).length),
        z ≤ (rtBToA flows p).length := by
      intro z hz
      obtain ⟨o, -, rfl⟩ := List.mem_map.mp hz
      exact List.length_filter_le _ _
    calc ((rtAToB flows p).map fun o =>
          ((rtBToA flows p).filter fun r =>
            decide (o.timestamp < r.timestamp) &&
            decide (r.timestamp ≤ o.timestamp + hours * 3600)).length).sum
        ≤ ((rtAToB flows p).map fun o =>
            ((rtBToA flows p).filter fun r =>
              decide (o.timestamp < r.timestamp) &&
              decide (r.timestamp ≤ o.timestamp + hours * 3600)).length).length •
              (rtBToA flows p).length := List.sum_le_card_nsmul _ _ hb
      _ = (rtAToB flows p).length * (rtBToA flows p).length := by
          rw [List.length_map, smul_eq_mul]
  have hxg : (rtAToB flows p).length ≤ (rtGroup flows p).length := by
    unfold rtAToB sortByTimestamp
    rw [length_sortLe]
    exact List.length_filter_le _ _
  have hyg : (rtBToA flows p).length ≤ (rtGroup flows p).length := by
    unfold rtBToA sortByTimestamp
    rw [length_sortLe]
    exact List.length_filter_le _ _
  have hx0 : (rtAToB flows p).length ≠ 0 := by
    intro h0
    rw [h0, Nat.zero_mul] at hxy
    omega
  have hy0 : (rtBToA flows p).length ≠ 0 := by
    intro h0
    rw [h0, Nat.mul_zero] at hxy
    omega
  refine ⟨?_, hx0, hy0⟩
  rcases Nat.lt_or_ge (rtAToB flows p).length 2 with hx2 | hx2
  · have hle : (rtAToB flows p).length ≤ 1 := by omega
    have : (rtAToB flows p).length * (rtBToA flows p).length ≤ (rtBToA flows p).length := by
      calc (rtAToB flows p).length * (rtBToA flows p).length
          ≤ 1 * (rtBToA flows p).length := Nat.mul_le_mul_right _ hle
        _ = (rtBToA flows p).length := Nat.one_mul _
    omega
  · omega

theorem rtForPair_eq_some_iff (flows : List UserFlow) (hours : Int)
    (p : String × String) (row : RoundtripRow) :
    rtForPair flows hours p = some row ↔
      (2 ≤ rtCount flows hours p ∧
        row = { wallet_a := p.1, wallet_b := p.2,
                roundtrip_count := rtCount flows hours p,
                total_transactions := (rtGroup flows p).length }) := by
  unfold rtForPair
  constructor
  · intro h
    split at h
    · exact absurd h (by simp)
    · split at h
      · exact absurd h (by simp)
      · split at h
        · next hcnt =>
          cases h
          exact ⟨hcnt, rfl⟩
        · exact absurd h (by simp)
  · rintro ⟨hcnt, rfl⟩
    obtain ⟨hg, ha, hb⟩ := rt_guards flows hours p hcnt
    rw [if_neg (by omega), if_neg (by simp [ha, hb]), if_pos hcnt]

theorem snd_detectSelfTransfers (flows : List UserFlow) (susp : List String) :
    (detectSelfTransfers flows susp).2 =
      susp ++ (detectSelfTransfers flows susp).1.map (·.wallet) := by
  unfold detectSelfTransfers
  split
  · simp
  · rfl

theorem snd_detectRapidRoundtrips (flows : List UserFlow) (hours : Int) (susp : List String) :
    (detectRapidRoundtrips flows hours susp).2 =
      susp ++ (detectRapidRoundtrips flows hours susp).1.map (·.wallet_a) ++
        (detectRapidRoundtrips flows hours susp).1.map (·.wallet_b) := by
  unfold detectRapidRoundtrips
  split
  · next hemp =>
    rw [List.isEmpty_iff] at hemp
    simp [hemp]
  · rfl

theorem snd_detectHighFrequencyPairs (flows : List UserFlow) (minTx : Nat) (susp : List String) :
    (detectHighFrequencyPairs flows minTx susp).2 =
      susp ++ (detectHighFrequencyPairs flows minTx susp).1.map (·.wallet_a) ++
        (detectHighFrequencyPairs flows minTx susp).1.map (·.wallet_b) := by
  unfold detectHighFrequencyPairs
  split
  · simp
  · rfl

theorem circFold_shift (maxLen : Nat) :
    ∀ (cs : List (List String)) (r0 : List CycleRow) (s0 : List String),
      cs.foldl (circStep maxLen) (r0, s0) =
        (r0 ++ (cs.foldl (circStep maxLen) ([], [])).1,
         s0 ++ (cs.foldl (circStep maxLen) ([], [])).2)
  | [], r0, s0 => by simp
  | c :: cs, r0, s0 => by
    simp only [List.foldl_cons, circStep]
    split
    · rw [circFold_shift maxLen cs (r0 ++ [_]) (s0 ++ c),
        circFold_shift maxLen cs ([] ++ [_]) ([] ++ c)]
      simp
    · rw [circFold_shift maxLen cs r0 s0,
        circFold_shift maxLen cs [] []]

theorem circFold_base (maxLen : Nat) :
    ∀ cs : List (List String),
      (cs.foldl (circStep maxLen) ([], [])).2 =
        ((cs.foldl (circStep maxLen) ([], [])).1).flatMap (·.wallets)
  | [] => by simp
  | c :: cs => by
    simp only [List.foldl_cons, circStep]
    split
    · rw [circFold_shift maxLen cs ([] ++ [_]) ([] ++ c)]
      simp [circFold_base maxLen cs]
    · exact circFold_base maxLen cs

theorem snd_detectCircularPatterns (cycles : List (List String)) (maxLen : Nat)
    (susp : List String) :
    (detectCircularPatterns cycles maxLen susp).2 =
      susp ++ (detectCircularPatterns cycles maxLen susp).1.flatMap (·.wallets) := by
  unfold detectCircularPatterns
  rw [circFold_shift maxLen (cycles.take 1000) [] susp]
  simp [circFold_base maxLen (cycles.take 1000)]

/-- **C5.** After `run_all_analyses`, the suspicious-wallet set is exactly the
union of the wallets appearing in the self-transfer, round-trip,
high-frequency-pair and circular-pattern findings; wallets appearing only in
the volume-concentration or temporal-clustering tables are never added. -/
theorem c5_suspicious_set_is_union (flows : List UserFlow) (cycles : List (List String))
    (w : String) :
    w ∈ (runAllAnalyses flows cycles).suspicious_wallets ↔
      (∃ r ∈ (runAllAnalyses flows cycles).results.self_transfers, r.wallet = w) ∨
      (∃ r ∈ (runAllAnalyses flows cycles).results.rapid_roundtrips,
        r.wallet_a = w ∨ r.wallet_b = w) ∨
      (∃ r ∈ (runAllAnalyses flows cycles).results.high_frequency_pairs,
        r.wallet_a = w ∨ r.wallet_b = w) ∨
      (∃ r ∈ (runAllAnalyses flows cycles).results.circular_patterns,
        w ∈ r.wallets) := by
  simp only [runAllAnalyses]
  rw [snd_detectCircularPatterns, snd_detectHighFrequencyPairs,
    snd_detectRapidRoundtrips, snd_detectSelfTransfers]
  simp only [List.mem_append, List.mem_map, List.mem_flatMap, List.nil_append]
  constructor
  · rintro (((((⟨r, hr, rfl⟩ | ⟨r, hr, rfl⟩) | ⟨r, hr, rfl⟩) | ⟨r, hr, rfl⟩) |
        ⟨r, hr, rfl⟩) | ⟨r, hr, hw⟩)
    · exact Or.inl ⟨r, hr, rfl⟩
    · exact Or.inr (Or.inl ⟨r, hr, Or.inl rfl⟩)
    · exact Or.inr (Or.inl ⟨r, hr, Or.inr rfl⟩)
    · exact Or.inr (Or.inr (Or.inl ⟨r, hr, Or.inl rfl⟩))
    · exact Or.inr (Or.inr (Or.inl ⟨r, hr, Or.inr rfl⟩))
    · exact Or.inr (Or.inr (Or.inr ⟨r, hr, hw⟩))
  · rintro (⟨r, hr, rfl⟩ | ⟨r, hr, rfl | rfl⟩ | ⟨r, hr, rfl | rfl⟩ | ⟨r, hr, hw⟩)
    · exact Or.inl (Or.inl (Or.inl (Or.inl (Or.inl ⟨r, hr, rfl⟩))))
    · exact Or.inl (Or.inl (Or.inl (Or.inl (Or.inr ⟨r, hr, rfl⟩))))
    · exact Or.inl (Or.inl (Or.inl (Or.inr ⟨r, hr, rfl⟩)))
    · exact Or.inl (Or.inl (Or.inr ⟨r, hr, rfl⟩))
    · exact Or.inl (Or.inr ⟨r, hr, rfl⟩)
    · exact Or.inr ⟨r, hr, hw⟩

theorem mem_createRiskAnalysis {det : DetectorState} {bots : List BotRow}
    {tops : List String} {row : RiskRow} (h : row ∈ createRiskAnalysis det bots tops) :
    ∃ w, row = riskRowFor det bots tops w := by
  unfold createRiskAnalysis at h
  rw [mem_sortLe] at h
  obtain ⟨w, -, rfl⟩ := List.mem_map.mp h
  exact ⟨w, rfl⟩

theorem calcRiskLevel_not_top (bs : ℚ) (bc : String) (wash : Bool) (cnt : Nat)
    (istop : Bool) (htop : istop = false) (hbs : 0 ≤ bs) :
    (calculateRiskLevel bs bc wash cnt istop).2 =
      min (bs * 50 + (if wash then min ((cnt : ℚ) * 15) 50 else 0)) 100 ∧
    0 ≤ (calculateRiskLevel bs bc wash cnt istop).2 ∧
    (calculateRiskLevel bs bc wash cnt istop).2 ≤ 100 ∧
    (calculateRiskLevel bs bc wash cnt istop).1 =
      (if (calculateRiskLevel bs bc wash cnt istop).2 ≥ 75 then "CRITICAL"
       else if (calculateRiskLevel bs bc wash cnt istop).2 ≥ 50 then "HIGH"
       else if (calculateRiskLevel bs bc wash cnt istop).2 ≥ 25 then "MEDIUM"
       else "LOW") := by
  subst htop
  simp only [calculateRiskLevel, Bool.false_eq_true, if_false, zero_add]
  have hEq : (if wash = true then bs * 50 + min ((cnt : ℚ) * 15) 50 else bs * 50) =
      bs * 50 + (if wash = true then min ((cnt : ℚ) * 15) 50 else 0) := by
    cases wash <;> simp
  rw [hEq]
  have hnn : 0 ≤ bs * 50 + (if wash = true then min ((cnt : ℚ) * 15) 50 else 0) := by
    have h1 : (0 : ℚ) ≤ bs * 50 := mul_nonneg hbs (by norm_num)
    have h2 : (0 : ℚ) ≤ (if wash = true then min ((cnt : ℚ) * 15) 50 else 0) := by
      split
      · exact le_min (by positivity) (by norm_num)
      · exact le_refl 0
    exact add_nonneg h1 h2
  exact ⟨rfl, le_min hnn (by norm_num), min_le_right _ _, trivial⟩

/-- **C1 (amended).** For every non-top-holder wallet in the risk table,
`risk_score = clamp(bot_score·50 + w, [0, 100])` where the wash contribution
`w` is `min(wash_flag_count·15, 50)` **only when the wallet is in the
suspicious (wash-flagged) set** and 0 otherwise — a wallet counted by an
informational detector but outside the suspicious set gets no wash points —
and the risk level thresholds are ≥75 CRITICAL, ≥50 HIGH, ≥25 MEDIUM, else
LOW. -/
theorem c1_risk_formula_gated (det : DetectorState) (bots : List BotRow)
    (tops : List String) (row : RiskRow) (hrow : row ∈ createRiskAnalysis det bots tops)
    (htop : row.is_top_holder = false) (hbs : 0 ≤ row.bot_score) :
    row.risk_score =
      min (row.bot_score * 50 +
        (if row.is_wash_trading then min ((row.wash_flag_count : ℚ) * 15) 50 else 0)) 100 ∧
    0 ≤ row.risk_score ∧ row.risk_score ≤ 100 ∧
    row.risk_level =
      (if row.risk_score ≥ 75 then "CRITICAL"
       else if row.risk_score ≥ 50 then "HIGH"
       else if row.risk_score ≥ 25 then "MEDIUM"
       else "LOW") := by
  obtain ⟨w, rfl⟩ := mem_createRiskAnalysis hrow
  exact calcRiskLevel_not_top (botScoreOf bots w) (botClassOf bots w)
    (det.suspicious_wallets.contains w) (washFlags det.results w).length
    (tops.contains w) htop hbs

/-- Concrete evaluation of the full pipeline on `flowsC1` (no top holders):
one row, flagged once by volume concentration, not wash-trading, score 0. -/
theorem evalRiskC1 :
    createRiskAnalysis (runAllAnalyses flowsC1 []) botsC1 [] = [rowC1] := by
  simp [createRiskAnalysis, riskRowFor, botScoreOf, botClassOf, botConfOf,
    washFlags, calculateRiskLevel, runAllAnalyses, detectSelfTransfers,
    selfTransferSummary, detectRapidRoundtrips, rtFindings, rtForPair,
    detectHighFrequencyPairs, hfFindings, detectCircularPatterns, circStep,
    rtGroup, rtAToB, rtBToA, rtCount,
    analyzeVolumeConcentration, detectTemporalClustering, pairKeysOf, pairKey,
    pairLe, groupKeys, sortLe, insertLe, sortByTimestamp, strLe, strLt, charListLt,
    flowsC1, botsC1, rowC1, List.filter_cons, Function.comp]
  norm_num [rowC1]

/-- **C1 (counterexample).** On `flowsC1` the wallet `walletA` has
`wash_flag_count = 1` (volume concentration only), `bot_score = 0` and is no
top holder, yet its risk score is 0, while the claim's ungated formula
`clamp(bot_score·50 + min(wash_flag_count·15, 50))` gives 15: the claim as
stated is false. -/
theorem c1_counterexample_volume_only_flag :
    (createRiskAnalysis (runAllAnalyses flowsC1 []) botsC1 []).map
        (fun r => (r.wallet, r.risk_score, r.wash_flag_count, r.is_top_holder)) =
      [("walletA", (0 : ℚ), 1, false)] ∧
    (0 : ℚ) ≠ min ((0 : ℚ) * 50 + min (((1 : Nat) : ℚ) * 15) 50) 100 := by
  constructor
  · rw [evalRiskC1]
    rfl
  · have : min ((0 : ℚ) * 50 + min (((1 : Nat) : ℚ) * 15) 50) 100 = 15 := by
      norm_num
    rw [this]
    norm_num

/-- Witness for the amended C1 at the concrete run: the single row of
`flowsC1` satisfies the gated formula (its score is 0, not 15, because it is
not wash-flagged). -/
theorem c1_risk_formula_gated_witness :
    rowC1.risk_score =
      min (rowC1.bot_score * 50 +
        (if rowC1.is_wash_trading then min ((rowC1.wash_flag_count : ℚ) * 15) 50 else 0))
        100 := by
  refine (c1_risk_formula_gated (runAllAnalyses flowsC1 []) botsC1 [] rowC1 ?_ rfl ?_).1
  · rw [evalRiskC1]
    exact List.mem_singleton_self _
  · exact le_refl 0

/-- **C10.** A wallet is classified by `BotDetector.classify_wallets` exactly
when it appears at least once as `start_wallet` and its combined
start+end flow count reaches `min_transactions`: the eligibility series is
indexed by the start-wallet counts, so a wallet that appears only as
`end_wallet` is never eligible, whatever the threshold. -/
theorem c10_eligibility_requires_start_wallet (flows : List UserFlow) (minTx : Nat)
    (w : String) :
    w ∈ eligibleWallets flows minTx ↔
      (∃ f ∈ flows, f.start_wallet = w) ∧
        minTx ≤ startCount flows w + endCount flows w := by
  unfold eligibleWallets
  simp only [List.mem_map, List.mem_filter, mem_sortLe]
  constructor
  · rintro ⟨p, ⟨hp, hcond⟩, rfl⟩
    obtain ⟨u, hu, hup⟩ := hp
    cases hup
    refine ⟨?_, by simpa using hcond⟩
    have : u ∈ flows.map (·.start_wallet) := List.mem_dedup.mp hu
    simpa using this
  · rintro ⟨⟨f, hf, hfw⟩, hcnt⟩
    refine ⟨(w, startCount flows w + endCount flows w), ⟨?_, by simpa using hcnt⟩, rfl⟩
    exact ⟨w, List.mem_dedup.mpr (List.mem_map.mpr ⟨f, hf, hfw⟩), rfl⟩

/-- Witness for C10 at a concrete input: `wA` (a start wallet with 2 ≥ 1
total appearances) is eligible at threshold 1, and the only-receiving wallet
`wB` is not eligible even at threshold 0. -/
theorem c10_eligibility_requires_start_wallet_witness :
    "wA" ∈ eligibleWallets flowsC10 1 ∧ "wB" ∉ eligibleWallets flowsC10 0 := by
  constructor
  · exact (c10_eligibility_requires_start_wallet flowsC10 1 "wA").mpr
      (by refine ⟨⟨flowsC10.head (by simp [flowsC10]), by simp [flowsC10], by simp [flowsC10]⟩, ?_⟩
          simp [flowsC10, startCount, endCount])
  · intro h
    have := (c10_eligibility_requires_start_wallet flowsC10 0 "wB").mp h
    obtain ⟨⟨f, hf, hfw⟩, -⟩ := this
    simp [flowsC10] at hf
    subst hf
    simp [flowsC10] at hfw

theorem calcRiskLevel_top (bs : ℚ) (bc : String) (wash : Bool) (cnt : Nat)
    (istop : Bool) (htop : istop = true) :
    ((wash = true ∨ bc = "BOT") → (calculateRiskLevel bs bc wash cnt istop).2 = 100) ∧
    (wash = false → bc ≠ "BOT" →
      (calculateRiskLevel bs bc wash cnt istop).2 = min (bs * 50 + 20) 100) := by
  subst htop
  constructor
  · rintro (hw | hbc)
    · simp [calculateRiskLevel, hw]
    · simp [calculateRiskLevel, hbc]
  · intro hw hbc
    have hbeq : (bc == "BOT") = false := beq_eq_false_iff_ne.mpr hbc
    simp [calculateRiskLevel, hw, hbeq]

/-- **C2 (amended).** For every top-holder wallet in the risk table: if it is
wash-flagged (in the suspicious set) or classified BOT, the risk score is
forced to exactly 100; otherwise the risk score is `bot_score·50 + 20`
clamped at 100 — the wash term is zero in this branch because the wallet is
not wash-flagged, even when informational detectors counted wash flags. -/
theorem c2_whale_risk_fusion (det : DetectorState) (bots : List BotRow)
    (tops : List String) (row : RiskRow) (hrow : row ∈ createRiskAnalysis det bots tops)
    (htop : row.is_top_holder = true) :
    ((row.is_wash_trading = true ∨ row.bot_classification = "BOT") →
      row.risk_score = 100) ∧
    (row.is_wash_trading = false → row.bot_classification ≠ "BOT" →
      row.risk_score = min (row.bot_score * 50 + 20) 100) := by
  obtain ⟨w, rfl⟩ := mem_createRiskAnalysis hrow
  exact calcRiskLevel_top (botScoreOf bots w) (botClassOf bots w)
    (det.suspicious_wallets.contains w) (washFlags det.results w).length
    (tops.contains w) htop

/-- Concrete evaluation of the pipeline on `flowsC1` with `walletA` in the
whale set. -/
theorem evalRiskC2 :
    createRiskAnalysis (runAllAnalyses flowsC1 []) botsC1 ["walletA"] = [rowC2] := by
  simp [createRiskAnalysis, riskRowFor, botScoreOf, botClassOf, botConfOf,
    washFlags, calculateRiskLevel, runAllAnalyses, detectSelfTransfers,
    selfTransferSummary, detectRapidRoundtrips, rtFindings, rtForPair,
    detectHighFrequencyPairs, hfFindings, detectCircularPatterns, circStep,
    rtGroup, rtAToB, rtBToA, rtCount,
    analyzeVolumeConcentration, detectTemporalClustering, pairKeysOf, pairKey,
    pairLe, groupKeys, sortLe, insertLe, sortByTimestamp, strLe, strLt, charListLt,
    flowsC1, botsC1, rowC2, List.filter_cons, Function.comp]
  norm_num [rowC2]

/-- **C2 (counterexample).** On `flowsC1` with `walletA` in the whale set,
`walletA` is neither wash-flagged nor a BOT but has `wash_flag_count = 1`
(volume concentration): the code gives risk 20 (`0·50 + 20`), while the
claim's "additive formula plus 20" — `0·50 + min(1·15, 50) + 20 = 35` — does
not: the claim as stated is false. -/
theorem c2_counterexample_whale_volume_flag :
    (createRiskAnalysis (runAllAnalyses flowsC1 []) botsC1 ["walletA"]).map
        (fun r => (r.wallet, r.risk_score, r.wash_flag_count, r.is_top_holder,
          r.is_wash_trading, r.bot_classification)) =
      [("walletA", (20 : ℚ), 1, true, false, "HUMAN")] ∧
    (20 : ℚ) ≠ min ((0 : ℚ) * 50 + min (((1 : Nat) : ℚ) * 15) 50 + 20) 100 := by
  constructor
  · rw [evalRiskC2]
    rfl
  · have : min ((0 : ℚ) * 50 + min (((1 : Nat) : ℚ) * 15) 50 + 20) 100 = 35 := by
      norm_num
    rw [this]
    norm_num

/-- Witness for the amended C2 at the concrete run: the whale row of
`flowsC1` (not wash-flagged, not BOT) gets `min(bot_score·50 + 20, 100)`. -/
theorem c2_whale_risk_fusion_witness :
    rowC2.risk_score = min (rowC2.bot_score * 50 + 20) 100 := by
  refine (c2_whale_risk_fusion (runAllAnalyses flowsC1 []) botsC1 ["walletA"] rowC2
    ?_ rfl).2 rfl ?_
  · rw [evalRiskC2]
    exact List.mem_singleton_self _
  · intro hbc
    exact absurd hbc (by decide)

/-- **C6 (amended).** For any wallet data and any standard-deviation helper:
an absent transfers payload zeroes the timing and value-pattern raw scores,
an absent counterparties / intelligence / balances payload zeroes the
counterparty / intelligence / portfolio raw scores — but an absent flow
payload defaults `flow_balance_ratio` to 0, which satisfies the
balanced-flow rule, so the flow category earns its full point (weight 0.05)
rather than zero. A missing payload never yields a different score than the
same data with that payload present but empty (the neutral case): the
extracted features coincide. -/
theorem c6_missing_payload_scoring (std : List ℚ → ℚ) (d : WalletData) :
    (d.transfers = none → timingScore (extractFeatures std d) = 0 ∧
      patternScore (extractFeatures std d) = 0) ∧
    (d.counterparties = none → counterpartyScore (extractFeatures std d) = 0) ∧
    (d.intelligence = none → intelScore (extractFeatures std d) = 0) ∧
    (d.balances = none → portfolioScore (extractFeatures std d) = 0) ∧
    (d.flow = none → flowScore (extractFeatures std d) = 1) ∧
    extractFeatures std { d with transfers := some [] } =
      extractFeatures std { d with transfers := none } ∧
    extractFeatures std { d with counterparties := some [] } =
      extractFeatures std { d with counterparties := none } ∧
    extractFeatures std { d with intelligence := some [] } =
      extractFeatures std { d with intelligence := none } ∧
    extractFeatures std { d with balances := some [] } =
      extractFeatures std { d with balances := none } ∧
    extractFeatures std { d with flow := some [] } =
      extractFeatures std { d with flow := none } := by
  refine ⟨?_, ?_, ?_, ?_, ?_, rfl, rfl, rfl, rfl, rfl⟩
  · intro h
    constructor
    · norm_num [timingScore, extractFeatures, extractTransferFeats, h]
    · norm_num [patternScore, extractFeatures, extractTransferFeats, h]
  · intro h
    norm_num [counterpartyScore, extractFeatures, extractCounterpartyFeats, h]
  · intro h
    norm_num [intelScore, extractFeatures, extractIntelFeats, h]
  · intro h
    norm_num [portfolioScore, extractFeatures, extractBalanceFeats, h]
  · intro h
    norm_num [flowScore, extractFeatures, extractFlowFeats, h]

/-- **C6 (counterexample).** With every payload absent, the flow category
contributes its full raw point and the total bot score is `0.05`, not 0: an
absent flow payload is scored as a bot signal (balanced flow), refuting the
claim that every absent category contributes zero. -/
theorem c6_counterexample_flow_default :
    flowScore (extractFeatures stdZero emptyWalletData) = 1 ∧
    calculateBotScore (extractFeatures stdZero emptyWalletData) = 1 / 20 ∧
    (1 / 20 : ℚ) ≠ 0 := by
  refine ⟨?_, ?_, by norm_num⟩
  · norm_num [flowScore, extractFeatures, extractFlowFeats, emptyWalletData]
  · norm_num [calculateBotScore, extractFeatures, extractFlowFeats,
      extractTransferFeats, extractCounterpartyFeats, extractIntelFeats,
      extractBalanceFeats, emptyWalletData, timingScore, patternScore,
      counterpartyScore, intelScore, portfolioScore, flowScore]

/-- Witness for the amended C6 at concrete empty data: all five zeroed
categories and the full flow point, by the theorem instantiated at
`stdZero` and `emptyWalletData`. -/
theorem c6_missing_payload_scoring_witness :
    timingScore (extractFeatures stdZero emptyWalletData) = 0 ∧
    counterpartyScore (extractFeatures stdZero emptyWalletData) = 0 ∧
    intelScore (extractFeatures stdZero emptyWalletData) = 0 ∧
    portfolioScore (extractFeatures stdZero emptyWalletData) = 0 ∧
    flowScore (extractFeatures stdZero emptyWalletData) = 1 := by
  obtain ⟨h1, h2, h3, h4, h5, -⟩ := c6_missing_payload_scoring stdZero emptyWalletData
  exact ⟨(h1 rfl).1, h2 rfl, h3 rfl, h4 rfl, h5 rfl⟩

/-- **C4 (amended).** For every unordered wallet pair (written sorted, as the
detector canonicalises it): the pair is flagged exactly when it occurs in the
flow table and its matched-return total — for each `A→B` flow at time `t`,
the `B→A` flows in `(t, t + window]`, summed over all `A→B` flows, counting
overlaps — is at least 2; and each finding records the pair, the matched
total and the pair's total transaction count. (No return latency is recorded
— see the counterexample.) -/
theorem c4_roundtrip_flagging (flows : List UserFlow) (hours : Int) (a b : String)
    (hab : strLe a b = true) :
    ((∃ row ∈ rtFindings flows hours, row.wallet_a = a ∧ row.wallet_b = b) ↔
      ((∃ f ∈ flows, pairKey f = (a, b)) ∧
        2 ≤ roundtripMatchTotal flows hours a b)) ∧
    ∀ row ∈ rtFindings flows hours,
      row.roundtrip_count = roundtripMatchTotal flows hours row.wallet_a row.wallet_b ∧
      row.total_transactions =
        (flows.filter fun f => decide (pairKey f = (row.wallet_a, row.wallet_b))).length := by
  constructor
  · constructor
    · rintro ⟨row, hrow, ha, hb⟩
      obtain ⟨p, hp, hsome⟩ := List.mem_filterMap.mp hrow
      obtain ⟨hcnt, rfl⟩ := (rtForPair_eq_some_iff flows hours p row).mp hsome
      obtain ⟨p1, p2⟩ := p
      have ha' : p1 = a := ha
      have hb' : p2 = b := hb
      rw [ha', hb'] at hp hcnt
      refine ⟨mem_pairKeysOf.mp hp, ?_⟩
      rwa [rtCount_eq_spec flows hours a b hab] at hcnt
    · rintro ⟨⟨f, hf, hpk⟩, hcnt⟩
      have hp : (a, b) ∈ pairKeysOf flows := mem_pairKeysOf.mpr ⟨f, hf, hpk⟩
      have hcnt' : 2 ≤ rtCount flows hours (a, b) := by
        rwa [rtCount_eq_spec flows hours a b hab]
      exact ⟨_, List.mem_filterMap.mpr
        ⟨(a, b), hp, (rtForPair_eq_some_iff flows hours (a, b) _).mpr ⟨hcnt', rfl⟩⟩,
        rfl, rfl⟩
  · intro row hrow
    obtain ⟨p, hp, hsome⟩ := List.mem_filterMap.mp hrow
    obtain ⟨hcnt, rfl⟩ := (rtForPair_eq_some_iff flows hours p row).mp hsome
    have hsorted := mem_pairKeysOf_sorted hp
    obtain ⟨p1, p2⟩ := p
    exact ⟨rtCount_eq_spec flows hours p1 p2 hsorted, rfl⟩

/-- **C4 (counterexample).** On `flowsC4` the pair is flagged with matched
total 2, and the minimum observed return latency is 3600 seconds — but the
emitted finding consists of exactly the four fields
`(wallet_a, wallet_b, roundtrip_count, total_transactions) =
("alice", "bob", 2, 3)` (the row type carries what the source emits), and
neither numeric field equals the latency: the detector does not record the
minimum return latency, refuting that part of the claim. -/
theorem c4_counterexample_no_latency_in_finding :
    rtFindings flowsC4 24 =
      [{ wallet_a := "alice", wallet_b := "bob",
         roundtrip_count := 2, total_transactions := 3 }] ∧
    minReturnLatency flowsC4 24 "alice" "bob" = some 3600 ∧
    (2 : Nat) ≠ 3600 ∧ (3 : Nat) ≠ 3600 := by
  refine ⟨by decide, by decide, by decide, by decide⟩

/-- Witness for the amended C4: on `flowsC4` the pair (`alice`,`bob`) is
flagged, by the theorem with the matched total 2 computed concretely. -/
theorem c4_roundtrip_flagging_witness :
    ∃ row ∈ rtFindings flowsC4 24, row.wallet_a = "alice" ∧ row.wallet_b = "bob" := by
  exact ((c4_roundtrip_flagging flowsC4 24 "alice" "bob" (by decide)).1).mpr
    ⟨⟨_, List.mem_cons_self _ _, by decide⟩, by decide⟩

/-- **C9.** Every `UserFlow` emitted by
`process_transfers_to_user_flows` satisfies
`is_self_transfer = (start_wallet == end_wallet)`. -/
theorem c9_self_transfer_invariant (rows : List RawTransfer) (flow : UserFlow)
    (h : flow ∈ processTransfersToUserFlows rows) :
    flow.is_self_transfer = (flow.start_wallet == flow.end_wallet) := by
  obtain ⟨txh, -, hg⟩ := List.mem_filterMap.mp h
  unfold processGroup at hg
  split at hg
  · exact absurd hg (by simp)
  · split at hg
    · split at hg
      · cases hg
        rfl
      · exact absurd hg (by simp)
    · exact absurd hg (by simp)

/-- **C3.** The token-level aggregate of
`RiskScoreAnalyzer.calculate_token_risk_score`:
`0.40·concentration + 0.30·bot + 0.30·wash`, where the concentration score is
`min(top_10_ratio·1.25, 100)` raised to at least 90 when the Gini coefficient
exceeds 0.9, `bot = min(bot_wallet_ratio·333, 100)` and
`wash = min(wash_wallet_ratio·500, 100)` over the wallet-profile table. -/
theorem c3_token_risk_formula (m : HolderMetrics) (results : List RiskRow) :
    (calculateTokenRiskScore (some m) results).token_risk_score =
      0.40 * (if m.gini_coefficient > 0.9
                then max (min (m.top_10_ratio * 1.25) 100) 90
                else min (m.top_10_ratio * 1.25) 100) +
      0.30 * min ((if 0 < results.length then
          ((results.filter fun r => r.bot_classification == "BOT").length : ℚ) /
            (results.length : ℚ)
        else 0) * 333) 100 +
      0.30 * min ((if 0 < results.length then
          ((results.filter (·.is_wash_trading)).length : ℚ) / (results.length : ℚ)
        else 0) * 500) 100 := by
  simp only [calculateTokenRiskScore]
  split_ifs <;> ring

/-- Sum of `2·(i+1)·c` over the 1-based enumeration of `replicate n c`,
starting the enumeration at `k`. -/
theorem sum_enumFrom_replicate (c : ℚ) :
    ∀ (n k : Nat),
      (((List.replicate n c).enumFrom k).map fun p => 2 * ((p.1 + 1 : ℕ) : ℚ) * p.2).sum =
        c * n * (2 * k + n + 1)
  | 0, k => by simp
  | n + 1, k => by
    have ih := sum_enumFrom_replicate c n (k + 1)
    simp only [List.replicate_succ, List.enumFrom_cons, List.map_cons, List.sum_cons, ih]
    push_cast
    ring

/-- The holding-percentage column of the processed holder table is the sorted
holding-percentage column of the raw rows (rank assignment does not change
it). -/
theorem map_holding_processHolderData (holders : List HolderEntry) :
    (processHolderData holders).map (·.holding_pct) =
      (sortLe (fun a b => decide (b.holding_pct ≤ a.holding_pct))
        (holders.map fun e =>
          ({ address := e.address.getD "Unknown", label := extractLabel e,
             balance := e.balance, usd_value := e.usd,
             holding_pct := e.pctOfCap * 100, rank := 0 } : HolderRow))).map (·.holding_pct) := by
  have aux : ∀ (l : List HolderRow) (k : Nat),
      ((l.enumFrom k).map fun p => ({ p.2 with rank := p.1 + 1 } : HolderRow).holding_pct) =
        l.map (·.holding_pct) := by
    intro l
    induction l with
    | nil => intro k; simp
    | cons x xs ih => intro k; simp only [List.enumFrom, List.map_cons, ih]
  simp only [processHolderData, List.map_map, List.enum, Function.comp]
  exact aux _ 0

/-- `processHolderData` preserves the number of rows. -/
theorem length_processHolderData (holders : List HolderEntry) :
    (processHolderData holders).length = holders.length := by
  simp [processHolderData, length_sortLe]

/-- **C8.** For a non-empty holder snapshot the Gini coefficient of
`calculate_concentration_metrics` is exactly
`(2·Σ(i·xᵢ))/(n·Σxᵢ) − (n+1)/n` over the holding shares sorted ascending with
1-based ranks, and it is 0 whenever all holders have the same positive
share. -/
theorem c8_gini_formula (holders : List HolderEntry) (h : holders ≠ []) :
    (calculateConcentrationMetrics (processHolderData holders)).gini_coefficient =
      giniSpecFormula
        (sortLe (fun a b => decide (a ≤ b)) ((processHolderData holders).map (·.holding_pct))) ∧
    ∀ x : ℚ, 0 < x → (∀ e ∈ holders, e.pctOfCap = x) →
      (calculateConcentrationMetrics (processHolderData holders)).gini_coefficient = 0 := by
  have hlen : (processHolderData holders).length = holders.length :=
    length_processHolderData holders
  have hne : processHolderData holders ≠ [] := by
    intro he
    rw [he] at hlen
    exact h (List.length_eq_zero.mp hlen.symm)
  have hEmpty : (processHolderData holders).isEmpty = false := by
    cases hpd : processHolderData holders with
    | nil => exact absurd hpd hne
    | cons a l => rfl
  have hn : (sortLe (fun a b => decide (a ≤ b))
      ((processHolderData holders).map (·.holding_pct))).length = holders.length := by
    rw [length_sortLe, List.length_map, hlen]
  have hn0 : (sortLe (fun a b => decide (a ≤ b))
      ((processHolderData holders).map (·.holding_pct))).length ≠ 0 := by
    rw [hn]
    exact fun h0 => h (List.length_eq_zero.mp h0)
  have hgini : (calculateConcentrationMetrics (processHolderData holders)).gini_coefficient =
      giniSpecFormula
        (sortLe (fun a b => decide (a ≤ b)) ((processHolderData holders).map (·.holding_pct))) := by
    simp only [calculateConcentrationMetrics, hEmpty, Bool.false_eq_true, if_false,
      giniSpecFormula, hn0, if_neg, ite_false]
    rw [show (fun p : Nat × ℚ => 2 * ((p.1 + 1 : ℕ) : ℚ) * p.2) =
          fun p : Nat × ℚ => 2 * (((p.1 + 1 : ℕ) : ℚ) * p.2) from funext fun p => by ring]
    rw [List.sum_map_mul_left]
  refine ⟨hgini, ?_⟩
  intro x hx hall
  rw [hgini]
  have hmem : ∀ y ∈ sortLe (fun a b => decide (a ≤ b))
      ((processHolderData holders).map (·.holding_pct)), y = x * 100 := by
    intro y hy
    rw [mem_sortLe, map_holding_processHolderData, List.mem_map] at hy
    obtain ⟨r, hr, rfl⟩ := hy
    rw [mem_sortLe] at hr
    obtain ⟨e, he, rfl⟩ := List.mem_map.mp hr
    show e.pctOfCap * 100 = x * 100
    rw [hall e he]
  have hrep : sortLe (fun a b => decide (a ≤ b))
      ((processHolderData holders).map (·.holding_pct)) =
      List.replicate holders.length (x * 100) := by
    rw [List.eq_replicate_iff]
    exact ⟨hn, hmem⟩
  rw [giniSpecFormula, hrep]
  have hsum : (List.replicate holders.length (x * 100)).sum =
      (holders.length : ℚ) * (x * 100) := by
    rw [List.sum_replicate, nsmul_eq_mul]
  have henum : ((List.replicate holders.length (x * 100)).enum.map
      fun p => ((p.1 + 1 : ℕ) : ℚ) * p.2).sum =
      (x * 100) * holders.length * (holders.length + 1) / 2 := by
    have h2 := sum_enumFrom_replicate (x * 100) holders.length 0
    rw [show ((List.replicate holders.length (x * 100)).enumFrom 0) =
          (List.replicate holders.length (x * 100)).enum from rfl] at h2
    rw [show (fun p : Nat × ℚ => 2 * ((p.1 + 1 : ℕ) : ℚ) * p.2) =
          fun p : Nat × ℚ => 2 * (((p.1 + 1 : ℕ) : ℚ) * p.2) from funext fun p => by ring,
        List.sum_map_mul_left] at h2
    rw [eq_div_iff (two_ne_zero' ℚ)]
    push_cast at h2 ⊢
    linear_combination h2
  have hlenrep : (List.replicate holders.length (x * 100)).length = holders.length :=
    List.length_replicate _ _
  rw [hlenrep, hsum, henum]
  have hc : (x * 100 : ℚ) ≠ 0 := by positivity
  have hnq : (holders.length : ℚ) ≠ 0 := by
    exact_mod_cast fun h0 => h (List.length_eq_zero.mp (by exact_mod_cast h0))
  field_simp
  ring

/-- Witness for C8: on the concrete equal two-holder snapshot the Gini
coefficient is 0, by the theorem applied at `x = 1/2`. -/
theorem c8_gini_formula_witness :
    holdersC8 ≠ [] ∧
      (calculateConcentrationMetrics (processHolderData holdersC8)).gini_coefficient = 0 := by
  have hne : holdersC8 ≠ [] := by simp [holdersC8]
  exact ⟨hne, (c8_gini_formula holdersC8 hne).2 (1/2) (by norm_num)
    (by intro e he; simp [holdersC8] at he; rcases he with rfl | rfl <;> norm_num)⟩

/-- **C7 (amended).** Every emitted `UserFlow` comes from its transaction
group sorted by `block_number` (the raw data's `log_index` is never
consulted): `start_wallet` is the sender of the first hop with a
non-intermediary sender type, `end_wallet` the receiver of the first hop
scanning backward with a non-intermediary receiver type — so a flow is
emitted only when both are found — and `usd_value` is the sum of the USD
values of all hops in the group. -/
theorem c7_flow_extraction_block_order (rows : List RawTransfer) (flow : UserFlow)
    (h : flow ∈ processTransfersToUserFlows rows) :
    ∃ s e,
      (sortLe (fun a b => decide (a.blockNumber ≤ b.blockNumber))
        (rows.filter fun r => r.transactionHash == flow.transaction_hash)).find?
          (fun r => !isIntermediary r.fromEntityType) = some s ∧
      (sortLe (fun a b => decide (a.blockNumber ≤ b.blockNumber))
        (rows.filter fun r => r.transactionHash == flow.transaction_hash)).reverse.find?
          (fun r => !isIntermediary r.toEntityType) = some e ∧
      flow.start_wallet = s.fromAddress ∧
      flow.start_entity_type = s.fromEntityType ∧
      flow.end_wallet = e.toAddress ∧
      flow.end_entity_type = e.toEntityType ∧
      flow.usd_value = ((rows.filter fun r => r.transactionHash == flow.transaction_hash).map
        fun r => r.historicalUSD.getD 0).sum ∧
      flow.hop_count =
        (rows.filter fun r => r.transactionHash == flow.transaction_hash).length := by
  obtain ⟨txh, -, hg⟩ := List.mem_filterMap.mp h
  unfold processGroup at hg
  split at hg
  · exact absurd hg (by simp)
  · next first rest heq0 =>
    split at hg
    · next sr er heq1 heq2 =>
      split at hg
      · cases hg
        refine ⟨sr, er, ?_, ?_, rfl, rfl, rfl, rfl, ?_, ?_⟩
        · show (sortLe (fun a b => decide (a.blockNumber ≤ b.blockNumber))
            (rows.filter fun r => r.transactionHash == txh)).find?
              (fun r => !isIntermediary r.fromEntityType) = some sr
          rw [heq0]
          exact heq1
        · show (sortLe (fun a b => decide (a.blockNumber ≤ b.blockNumber))
            (rows.filter fun r => r.transactionHash == txh)).reverse.find?
              (fun r => !isIntermediary r.toEntityType) = some er
          rw [heq0]
          exact heq2
        · show ((first :: rest).map fun r => r.historicalUSD.getD 0).sum =
            ((rows.filter fun r => r.transactionHash == txh).map
              fun r => r.historicalUSD.getD 0).sum
          rw [← heq0, sum_map_sortLe]
        · show (first :: rest).length =
            (rows.filter fun r => r.transactionHash == txh).length
          rw [← heq0, length_sortLe]
      · exact absurd hg (by simp)
    · exact absurd hg (by simp)

/-- Concrete evaluation of the source extraction on `rowsC7`. -/
theorem evalFlowsC7 : processTransfersToUserFlows rowsC7 = [flowC7] := by
  simp [processTransfersToUserFlows, rowsC7, groupKeys, sortLe, insertLe, strLe, strLt,
    charListLt, processGroup, isIntermediary, intermediaries, flowC7]
  norm_num

/-- Concrete evaluation of the claim's log_index-ordered extraction on
`rowsC7`. -/
theorem evalFlowsC7spec : processTransfersSpecLogIndex rowsC7 = [flowC7spec] := by
  simp [processTransfersSpecLogIndex, rowsC7, groupKeys, sortLe, insertLe, strLe, strLt,
    charListLt, processGroupSpecLogIndex, isIntermediary, intermediaries, flowC7spec]
  norm_num

/-- **C7 (counterexample).** On `rowsC7` the source picks `start_wallet = "A"`
(first hop by `block_number`), while sorting the group by `log_index`, as the
claim states, would pick `start_wallet = "B"`: the extraction does not sort
by `log_index`. -/
theorem c7_counterexample_log_index_order :
    (processTransfersToUserFlows rowsC7).map (·.start_wallet) = ["A"] ∧
    (processTransfersSpecLogIndex rowsC7).map (·.start_wallet) = ["B"] ∧
    processTransfersToUserFlows rowsC7 ≠ processTransfersSpecLogIndex rowsC7 := by
  refine ⟨?_, ?_, ?_⟩
  · rw [evalFlowsC7]
    rfl
  · rw [evalFlowsC7spec]
    rfl
  · rw [evalFlowsC7, evalFlowsC7spec]
    simp [flowC7, flowC7spec]

/-- Witness for the amended C7 at `rowsC7`: the emitted flow's endpoints come
from the block_number-sorted group, by the theorem applied to the concrete
run. -/
theorem c7_flow_extraction_block_order_witness :
    ∃ s e,
      (sortLe (fun a b => decide (a.blockNumber ≤ b.blockNumber))
        (rowsC7.filter fun r => r.transactionHash == flowC7.transaction_hash)).find?
          (fun r => !isIntermediary r.fromEntityType) = some s ∧
      (sortLe (fun a b => decide (a.blockNumber ≤ b.blockNumber))
        (rowsC7.filter fun r => r.transactionHash == flowC7.transaction_hash)).reverse.find?
          (fun r => !isIntermediary r.toEntityType) = some e ∧
      flowC7.start_wallet = s.fromAddress ∧
      flowC7.start_entity_type = s.fromEntityType ∧
      flowC7.end_wallet = e.toAddress ∧
      flowC7.end_entity_type = e.toEntityType ∧
      flowC7.usd_value = ((rowsC7.filter fun r => r.transactionHash == flowC7.transaction_hash).map
        fun r => r.historicalUSD.getD 0).sum ∧
      flowC7.hop_count =
        (rowsC7.filter fun r => r.transactionHash == flowC7.transaction_hash).length := by
  refine c7_flow_extraction_block_order rowsC7 flowC7 ?_
  rw [evalFlowsC7]
  exact List.mem_singleton_self _

/-- Witness for C9: on `rowsC9` the extractor emits exactly `flowC9`, and the
invariant instantiates to it. -/
theorem c9_self_transfer_invariant_witness :
    processTransfersToUserFlows rowsC9 = [flowC9] ∧
      flowC9.is_self_transfer = (flowC9.start_wallet == flowC9.end_wallet) := by
  have hmain : processTransfersToUserFlows rowsC9 = [flowC9] := by
    simp [processTransfersToUserFlows, rowsC9, groupKeys, sortLe, insertLe, strLe, strLt,
      processGroup, isIntermediary, intermediaries, flowC9]
    norm_num
  refine ⟨hmain, c9_self_transfer_invariant rowsC9 flowC9 ?_⟩
  simp [hmain]

end SolanaWash
